import Mathlib

/-!
Shallow embedding of the `drawing_lib` Python package (pydantic models):
`types.py`, `styles.py`, `shapes.py`, `layers.py`, `document.py`.

Conventions of the embedding:
* Python `float` values are modelled as `ℚ` (the program performs only
  field arithmetic and comparisons on them).
* Python exceptions raised by validators are modelled with `Except PyError`.
  `PyError.styleError` embeds `InvalidStyleError`, `PyError.geometryError`
  embeds `InvalidGeometryError`, and `PyError.validationError` embeds a
  pydantic `ValidationError` raised by declarative `Field` constraints
  (for example `min_length=2`) before any `field_validator` runs.
* pydantic `BaseModel` semantics: `model_validator(mode='after')` and
  `field_validator`s run at construction; since no model in the source
  sets `model_config = ConfigDict(validate_assignment=True)`, plain
  attribute assignment after construction does NOT re-run any validator.
  Construction is modelled by `mk...` functions returning `Except`/`Option`;
  assignment is modelled by plain record update.
* Python strings are modelled as `List Char` where character-level
  computation matters (hex colors, path data), otherwise as `String`.
-/

namespace DrawingLib

/-- Errors of the embedded program: `InvalidStyleError`, `InvalidGeometryError`
(from `types.py`) and pydantic's own `ValidationError`. -/
inductive PyError where
  | styleError (msg : String)
  | geometryError (msg : String)
  | validationError
deriving DecidableEq, Repr

/-! ### Canvas unit conversion (`document.py`, `CanvasSize`) -/

/-- Embeds `CanvasSize` from `document.py`.  `units` is the value of the
`Units` str-enum ("px", "mm", "in", "pt", "cm"); it is kept as a string so
that the final `else` branch of `to_pixels` is expressible. -/
structure CanvasSize where
  width : ℚ
  height : ℚ
  units : String
deriving DecidableEq, Repr

/-- Embeds `CanvasSize.to_pixels` from `document.py` lines 21-52: the
if/elif chain over the unit enum, with pass-through default. -/
def CanvasSize.to_pixels (c : CanvasSize) (dpi : ℚ) : ℚ × ℚ :=
  if c.units = "px" then (c.width, c.height)
  else if c.units = "in" then (c.width * dpi, c.height * dpi)
  else if c.units = "mm" then (c.width / 25.4 * dpi, c.height / 25.4 * dpi)
  else if c.units = "cm" then (c.width / 2.54 * dpi, c.height / 2.54 * dpi)
  else if c.units = "pt" then (c.width / 72.0 * dpi, c.height / 72.0 * dpi)
  else (c.width, c.height)

/-! ### Layer shape-list operations (`layers.py`, `Layer`)

`Layer.shapes` is a Python list of `Union[ID, Shape]`; list membership,
`index` and `remove` use `==` (pydantic models compare field-wise), which is
modelled by a `DecidableEq` element type. -/

/-- Embeds `Layer.add_shape` (`layers.py` lines 35-38):
append unless already present. -/
def add_shape {α : Type} [DecidableEq α] (shapes : List α) (s : α) : List α :=
  if s ∈ shapes then shapes else shapes ++ [s]

/-- Helper modelling `list.index` + `list.pop` as one step: finds the first
element satisfying `p`, returning it and the list with it removed; `none`
models Python's `ValueError` when no element matches. -/
def extractFirst {α : Type} (p : α → Bool) : List α → Option (α × List α)
  | [] => none
  | x :: xs =>
    if p x then some (x, xs)
    else (extractFirst p xs).map fun r => (r.1, x :: r.2)

/-- Embeds `Layer.move_shape` (`layers.py` lines 53-73): pop the first
element equal to `s` (Python `list.index` + `pop`), clamp the target index
to `[0, len]` of the shortened list, re-insert, return `true`; `(l, false)`
when `s` is absent (the `ValueError` branch). -/
def move_shape {α : Type} [DecidableEq α] (l : List α) (s : α) (newIndex : ℤ) :
    List α × Bool :=
  match extractFirst (fun x => x = s) l with
  | none => (l, false)
  | some (x, rest) =>
    (rest.insertIdx (max 0 (min newIndex (rest.length : ℤ))).toNat x, true)

/-- Embeds the ID branch of `LayerGroup.move_child` (`layers.py` lines
156-183): locate the first child whose id equals `cid`, pop it, clamp the
index, re-insert. -/
def move_child_by_id {α : Type} (idOf : α → String) (children : List α)
    (cid : String) (newIndex : ℤ) : List α × Bool :=
  match extractFirst (fun c => idOf c = cid) children with
  | none => (children, false)
  | some (c, rest) =>
    (rest.insertIdx (max 0 (min newIndex (rest.length : ℤ))).toNat c, true)

/-! ### Colors (`styles.py`) -/

/-- Embeds `RGBColor` (`styles.py`): `r`,`g`,`b` are ints constrained by
pydantic to `0..255`. -/
structure RGBColor where
  r : ℕ
  g : ℕ
  b : ℕ
deriving DecidableEq, Repr

/-- Embeds `RGBAColor` (`styles.py`): byte components plus an alpha float
in `[0,1]`, modelled as `ℚ`. -/
structure RGBAColor where
  r : ℕ
  g : ℕ
  b : ℕ
  a : ℚ
deriving DecidableEq, Repr

/-- Embeds `HSLColor` (`styles.py`). -/
structure HSLColor where
  h : ℚ
  s : ℚ
  l : ℚ
deriving DecidableEq, Repr

/-- Embeds `HexColor` (`styles.py`): the stored, already-validated hex
string (as a character list, including the leading hash mark). -/
structure HexColor where
  value : List Char
deriving DecidableEq, Repr

/-- Embeds the `Color` union type of `styles.py`. -/
inductive Color where
  | rgb (c : RGBColor)
  | rgba (c : RGBAColor)
  | hsl (c : HSLColor)
  | hex (c : HexColor)
deriving DecidableEq, Repr

/-- Python `round` (banker's rounding, round-half-to-even) on a rational. -/
def pyRound (q : ℚ) : ℤ :=
  let f := ⌊q⌋
  if q - f < 1 / 2 then f
  else if (1 : ℚ) / 2 < q - f then f + 1
  else if f % 2 = 0 then f else f + 1

/-- Python `format(n, '02x')` for `n ≤ 255` (the only range the program
uses it on: byte components bounded by pydantic, and `round(a*255)` for
`a ∈ [0,1]`): two lowercase hex digits, zero-padded. -/
def format02x (n : ℕ) : List Char :=
  [Nat.digitChar (n / 16), Nat.digitChar (n % 16)]

/-- Embeds `RGBAColor.to_hex` (`styles.py` lines 37-40): lowercase `%02x`
formatting of the three byte components, then the rounded alpha byte —
the alpha pair is always appended. -/
def RGBAColor.to_hex (c : RGBAColor) : List Char :=
  '#' :: (format02x c.r ++ format02x c.g ++ format02x c.b
    ++ format02x (pyRound (c.a * 255)).toNat)

/-- The 22 characters accepted by the regex `^[0-9A-Fa-f]+$` in
`HexColor.validate_hex_color`. -/
def hexDigits : List Char :=
  ['0', '1', '2', '3', '4', '5', '6', '7', '8', '9',
   'A', 'B', 'C', 'D', 'E', 'F', 'a', 'b', 'c', 'd', 'e', 'f']

/-- Membership in `hexDigits`, as a Boolean. -/
def isHexDig (c : Char) : Bool := decide (c ∈ hexDigits)

/-- Models `v[1:] if v.startswith('#') else v`. -/
def stripHash : List Char → List Char
  | '#' :: t => t
  | t => t

/-- Embeds `HexColor.validate_hex_color` (`styles.py` lines 64-83): strip
an optional leading hash mark, require length 6 or 8, require hex digits,
store uppercase with a leading hash mark. -/
def validate_hex_color (v : List Char) : Except PyError (List Char) :=
  let v := stripHash v
  if v.length ≠ 6 ∧ v.length ≠ 8 then
    .error (.styleError "Hex color must be 6 or 8 characters long")
  else if ¬ v.all isHexDig then
    .error (.styleError "Hex color contains invalid characters")
  else
    .ok ('#' :: v.map Char.toUpper)

/-- Value of a single hex digit, as computed by Python `int(c, 16)`. -/
def hexVal (c : Char) : ℕ :=
  if '0' ≤ c ∧ c ≤ '9' then c.toNat - '0'.toNat
  else if 'a' ≤ c ∧ c ≤ 'f' then c.toNat - 'a'.toNat + 10
  else if 'A' ≤ c ∧ c ≤ 'F' then c.toNat - 'A'.toNat + 10
  else 0

/-- Python `int(⟨c1,c2⟩, 16)` on a two-character hex string. -/
def hexPairVal (c1 c2 : Char) : ℕ := 16 * hexVal c1 + hexVal c2

/-- Embeds `HexColor.to_rgba` (`styles.py` lines 93-102) on the stored
value: drop the hash mark, read three byte pairs, and the alpha pair when
present (`a = byte/255`), else `a = 1.0`.  `none` models the runtime
failure on a malformed stored value (unreachable for validated colors). -/
def HexColor.to_rgba (value : List Char) : Option RGBAColor :=
  match value with
  | '#' :: c1 :: c2 :: c3 :: c4 :: c5 :: c6 :: rest =>
    let r := hexPairVal c1 c2
    let g := hexPairVal c3 c4
    let b := hexPairVal c5 c6
    match rest with
    | [] => some ⟨r, g, b, 1⟩
    | [c7, c8] => some ⟨r, g, b, (hexPairVal c7 c8 : ℚ) / 255⟩
    | _ => none
  | _ => none

/-- Construct a `HexColor` from a raw string and convert it to RGBA:
`HexColor(value=s).to_rgba()`. -/
def hexParseRGBA (s : List Char) : Option RGBAColor :=
  (validate_hex_color s).toOption.bind HexColor.to_rgba

/-- The full round trip `HexColor(value=s).to_rgba().to_hex()`. -/
def hexRoundTrip (s : List Char) : Option (List Char) :=
  (hexParseRGBA s).map RGBAColor.to_hex

/-! ### Gradients (`styles.py`) -/

/-- Embeds `GradientStop` (`styles.py`): a position in `[0,1]` and a color. -/
structure GradientStop where
  position : ℚ
  color : Color
deriving DecidableEq, Repr

/-- Comparison key used by `sorted(v, key=lambda stop: stop.position)`. -/
def stopLE (s t : GradientStop) : Prop := s.position ≤ t.position

instance : DecidableRel stopLE := fun s t => by
  unfold stopLE; infer_instance

instance : IsTotal GradientStop stopLE :=
  ⟨fun s t => le_total s.position t.position⟩

instance : IsTrans GradientStop stopLE :=
  ⟨fun _ _ _ h1 h2 => le_trans h1 h2⟩

/-- Embeds the shared body of `LinearGradient.validate_stops` and
`RadialGradient.validate_stops` (`styles.py` lines 126-141 and 153-168):
reject fewer than 2 stops, stable-sort by position (Python `sorted`),
reject duplicate positions (`len(set(positions)) != len(positions)`). -/
def validate_stops (v : List GradientStop) : Except PyError (List GradientStop) :=
  if v.length < 2 then
    .error (.styleError "Gradient must have at least 2 color stops")
  else
    if ((List.insertionSort stopLE v).map fun s => s.position).Nodup then
      .ok (List.insertionSort stopLE v)
    else
      .error (.styleError "Gradient stops cannot have duplicate positions")

/-- Embeds `LinearGradient` (`styles.py`). -/
structure LinearGradient where
  id : String
  start_x : ℚ
  start_y : ℚ
  end_x : ℚ
  end_y : ℚ
  stops : List GradientStop
deriving DecidableEq, Repr

/-- Embeds construction of a `LinearGradient`: the declarative
`Field(min_length=2)` constraint on `stops` runs first and raises a
pydantic `ValidationError`; only then does `validate_stops` run. -/
def mkLinearGradient (id : String) (sx sy ex ey : ℚ) (stops : List GradientStop) :
    Except PyError LinearGradient :=
  if stops.length < 2 then .error .validationError
  else (validate_stops stops).map fun st => ⟨id, sx, sy, ex, ey, st⟩

/-- Embeds `RadialGradient` (`styles.py`). -/
structure RadialGradient where
  id : String
  center_x : ℚ
  center_y : ℚ
  radius : ℚ
  stops : List GradientStop
deriving DecidableEq, Repr

/-- Embeds construction of a `RadialGradient` (same stop handling as the
linear one). -/
def mkRadialGradient (id : String) (cx cy r : ℚ) (stops : List GradientStop) :
    Except PyError RadialGradient :=
  if stops.length < 2 then .error .validationError
  else (validate_stops stops).map fun st => ⟨id, cx, cy, r, st⟩

/-! ### Fill properties (`styles.py`, `FillProperties`) -/

/-- Embeds `PatternFill` (`styles.py`). -/
structure PatternFill where
  id : String
  image_data : String
  width : ℚ
  height : ℚ
  repeat_x : Bool
  repeat_y : Bool
deriving DecidableEq, Repr

/-- Embeds the `FillType` str-enum from `types.py`. -/
inductive FillType where
  | solid
  | linearGradient
  | radialGradient
  | pattern
deriving DecidableEq, Repr

/-- Embeds the field record of `FillProperties` (`styles.py`): one optional
payload field per fill type, plus opacity. -/
structure FillProperties where
  type : FillType
  color : Option Color
  linear_gradient : Option LinearGradient
  radial_gradient : Option RadialGradient
  pattern : Option PatternFill
  opacity : ℚ
deriving DecidableEq, Repr

/-- Embeds `FillProperties.validate_fill_consistency` (`styles.py` lines
192-214): fail when the payload matching the tag is absent (`not self.color`
on a pydantic model is truthy-false only for `None`), then clear every
payload field not matching the tag. -/
def validate_fill_consistency (f : FillProperties) : Except PyError FillProperties :=
  if f.type = .solid ∧ f.color = none then
    .error (.styleError "Solid fill requires a color")
  else if f.type = .linearGradient ∧ f.linear_gradient = none then
    .error (.styleError "Linear gradient fill requires linear_gradient data")
  else if f.type = .radialGradient ∧ f.radial_gradient = none then
    .error (.styleError "Radial gradient fill requires radial_gradient data")
  else if f.type = .pattern ∧ f.pattern = none then
    .error (.styleError "Pattern fill requires pattern data")
  else
    .ok { f with
      color := if f.type ≠ .solid then none else f.color
      linear_gradient := if f.type ≠ .linearGradient then none else f.linear_gradient
      radial_gradient := if f.type ≠ .radialGradient then none else f.radial_gradient
      pattern := if f.type ≠ .pattern then none else f.pattern }

/-- Constructing a `FillProperties` runs the `model_validator(mode='after')`. -/
def mkFillProperties (f : FillProperties) : Except PyError FillProperties :=
  validate_fill_consistency f

/-- Plain attribute assignment `fill.type = t`: with no
`validate_assignment` config, pydantic does not re-run any validator. -/
def setFillType (f : FillProperties) (t : FillType) : FillProperties :=
  { f with type := t }

/-! ### Shapes (`shapes.py`)

`Shape.geometry` is a Python `Dict[str, Any]`.  It is modelled as an
association list from keys to `PyVal` dynamic values.  `PyVal.list` models
both Python lists and tuples (the claims do not depend on the
list/tuple distinction), `PyVal.str` carries the characters of a Python
string. -/

/-- Atomic Python value (number or string) inside a nested list. -/
inductive PyAtom where
  | num (q : ℚ)
  | str (s : List Char)
deriving DecidableEq, Repr

/-- Element of a top-level Python list value: an atom, or an inner list of
atoms (a point such as `[x, y]`).  The program never reads deeper nesting. -/
inductive PyElem where
  | atom (a : PyAtom)
  | list (l : List PyAtom)
deriving DecidableEq, Repr

/-- Dynamic Python value as stored in a geometry dictionary. -/
inductive PyVal where
  | num (q : ℚ)
  | str (s : List Char)
  | list (l : List PyElem)
deriving DecidableEq, Repr

/-- A geometry dictionary: keys are unique in any dict built by the
program; lookup returns the first binding. -/
abbrev GeomDict := List (String × PyVal)

/-- Python `key in geometry`. -/
def hasKey (g : GeomDict) (k : String) : Bool :=
  (List.lookup k g).isSome

/-- Python `geometry.get(key)` / `geometry[key]`. -/
def getKey (g : GeomDict) (k : String) : Option PyVal :=
  List.lookup k g

/-- Embeds the `ShapeType` str-enum from `types.py`. -/
inductive ShapeType where
  | rectangle
  | circle
  | ellipse
  | line
  | polyline
  | polygon
  | path
  | group
deriving DecidableEq, Repr

/-- Checks `isinstance(point, (list, tuple)) and len(point) == 2`. -/
def pointShapeOk : PyElem → Bool
  | .list [_, _] => true
  | _ => false

/-- Checks `all(isinstance(coord, (int, float)) for coord in point)`. -/
def pointNumsOk : PyElem → Bool
  | .list l => l.all fun v => match v with | .num _ => true | _ => false
  | _ => false

/-- The per-point loop shared by the polyline and polygon validators
(`shapes.py` lines 144-148 and 159-163); the index in the Python error
message is elided. -/
def validatePoints : List PyElem → Except PyError Unit
  | [] => .ok ()
  | p :: rest =>
    if ¬ pointShapeOk p then
      .error (.geometryError "Point must be an x,y coordinate")
    else if ¬ pointNumsOk p then
      .error (.geometryError "Point coordinates must be numbers")
    else validatePoints rest

/-- Checks that `geometry[k]` exists and is numeric. -/
def isNumKey (g : GeomDict) (k : String) : Bool :=
  match getKey g k with
  | some (.num _) => true
  | _ => false

/-- Embeds `Shape._validate_rectangle_geometry` (`shapes.py` lines 81-99). -/
def validate_rectangle_geometry (g : GeomDict) : Except PyError Unit :=
  if ¬ (hasKey g "width" ∧ hasKey g "height") then
    .error (.geometryError "Rectangle requires width and height")
  else
    match getKey g "width" with
    | some (.num w) =>
      if w ≤ 0 then .error (.geometryError "Rectangle width must be a positive number")
      else
        match getKey g "height" with
        | some (.num h) =>
          if h ≤ 0 then .error (.geometryError "Rectangle height must be a positive number")
          else
            if hasKey g "corner_radius" then
              match getKey g "corner_radius" with
              | some (.num r) =>
                if r < 0 then .error (.geometryError "Corner radius must be a non-negative number")
                else .ok ()
              | _ => .error (.geometryError "Corner radius must be a non-negative number")
            else .ok ()
        | _ => .error (.geometryError "Rectangle height must be a positive number")
    | _ => .error (.geometryError "Rectangle width must be a positive number")

/-- Embeds `Shape._validate_circle_geometry` (`shapes.py` lines 101-108). -/
def validate_circle_geometry (g : GeomDict) : Except PyError Unit :=
  if ¬ hasKey g "radius" then .error (.geometryError "Circle requires radius")
  else
    match getKey g "radius" with
    | some (.num r) =>
      if r ≤ 0 then .error (.geometryError "Circle radius must be a positive number")
      else .ok ()
    | _ => .error (.geometryError "Circle radius must be a positive number")

/-- Embeds `Shape._validate_ellipse_geometry` (`shapes.py` lines 110-122). -/
def validate_ellipse_geometry (g : GeomDict) : Except PyError Unit :=
  if ¬ (hasKey g "rx" ∧ hasKey g "ry") then
    .error (.geometryError "Ellipse requires rx and ry")
  else
    match getKey g "rx" with
    | some (.num rx) =>
      if rx ≤ 0 then .error (.geometryError "Ellipse rx must be a positive number")
      else
        match getKey g "ry" with
        | some (.num ry) =>
          if ry ≤ 0 then .error (.geometryError "Ellipse ry must be a positive number")
          else .ok ()
        | _ => .error (.geometryError "Ellipse ry must be a positive number")
    | _ => .error (.geometryError "Ellipse rx must be a positive number")

/-- Embeds `Shape._validate_line_geometry` (`shapes.py` lines 124-133);
the required-field loop iterates over a Python set, so only the
all-numeric condition (not a message order) is observable. -/
def validate_line_geometry (g : GeomDict) : Except PyError Unit :=
  if ¬ (hasKey g "x1" ∧ hasKey g "y1" ∧ hasKey g "x2" ∧ hasKey g "y2") then
    .error (.geometryError "Line requires x1 y1 x2 y2")
  else if ¬ (isNumKey g "x1" ∧ isNumKey g "y1" ∧ isNumKey g "x2" ∧ isNumKey g "y2") then
    .error (.geometryError "Line field must be a number")
  else .ok ()

/-- Embeds `Shape._validate_polyline_geometry` (`shapes.py` lines 135-148). -/
def validate_polyline_geometry (g : GeomDict) : Except PyError Unit :=
  if ¬ hasKey g "points" then .error (.geometryError "Polyline requires points array")
  else
    match getKey g "points" with
    | some (.list pts) =>
      if pts.length < 2 then .error (.geometryError "Polyline must have at least 2 points")
      else validatePoints pts
    | _ => .error (.geometryError "Polyline must have at least 2 points")

/-- Embeds `Shape._validate_polygon_geometry` (`shapes.py` lines 150-163). -/
def validate_polygon_geometry (g : GeomDict) : Except PyError Unit :=
  if ¬ hasKey g "points" then .error (.geometryError "Polygon requires points array")
  else
    match getKey g "points" with
    | some (.list pts) =>
      if pts.length < 3 then .error (.geometryError "Polygon must have at least 3 points")
      else validatePoints pts
    | _ => .error (.geometryError "Polygon must have at least 3 points")

/-- ASCII whitespace as stripped by Python `str.strip()` (the non-ASCII
whitespace Python also strips does not occur in the program or claims). -/
def isSpaceChar (c : Char) : Bool :=
  c == ' ' || c == '\t' || c == '\n' || c == '\r'

/-- Python `s.strip()` on a character list. -/
def trimChars (l : List Char) : List Char :=
  ((l.dropWhile isSpaceChar).reverse.dropWhile isSpaceChar).reverse

/-- The SVG path command set from `Shape._validate_path_geometry`. -/
def validCommands : List Char :=
  ['M', 'm', 'L', 'l', 'H', 'h', 'V', 'v', 'C', 'c', 'S', 's',
   'Q', 'q', 'T', 't', 'A', 'a', 'Z', 'z']

/-- Embeds `Shape._validate_path_geometry` (`shapes.py` lines 165-178). -/
def validate_path_geometry (g : GeomDict) : Except PyError Unit :=
  if ¬ hasKey g "path_data" then .error (.geometryError "Path requires path_data")
  else
    match getKey g "path_data" with
    | some (.str s) =>
      match trimChars s with
      | [] => .error (.geometryError "Path data must be a non-empty string")
      | c :: _ =>
        if validCommands.contains c then .ok ()
        else .error (.geometryError "Path data must start with a valid SVG path command")
    | _ => .error (.geometryError "Path data must be a non-empty string")

/-- Embeds `Shape._validate_group_geometry` (`shapes.py` lines 180-192). -/
def validate_group_geometry (g : GeomDict) : Except PyError Unit :=
  if ¬ hasKey g "children" then .error (.geometryError "Group requires children array")
  else
    match getKey g "children" with
    | some (.list cs) =>
      if cs.all (fun c => match c with | .atom (.str _) => true | _ => false) then .ok ()
      else .error (.geometryError "Child must be a shape ID string")
    | _ => .error (.geometryError "Group children must be an array")

/-- Embeds the dispatch of `Shape.validate_geometry` (`shapes.py` lines
49-79).  `ShapeType` is exhaustive, so the `Unknown shape type` branch of
the source is unreachable here. -/
def validate_geometry (ty : ShapeType) (g : GeomDict) : Except PyError Unit :=
  match ty with
  | .rectangle => validate_rectangle_geometry g
  | .circle => validate_circle_geometry g
  | .ellipse => validate_ellipse_geometry g
  | .line => validate_line_geometry g
  | .polyline => validate_polyline_geometry g
  | .polygon => validate_polygon_geometry g
  | .path => validate_path_geometry g
  | .group => validate_group_geometry g

/-- Embeds `Transform` (`shapes.py`). -/
structure Transform where
  x : ℚ := 0
  y : ℚ := 0
  rotation : ℚ := 0
  scale_x : ℚ := 1
  scale_y : ℚ := 1
  skew_x : ℚ := 0
  skew_y : ℚ := 0
deriving DecidableEq, Repr

/-- Embeds the `Shape` model fields the claims depend on (`shapes.py`):
the type tag, the geometry dictionary, and the transform that
`validate_geometry` defaults when absent. -/
structure Shape where
  type : ShapeType
  geometry : GeomDict
  transform : Transform
deriving DecidableEq, Repr

/-- Embeds `Shape(type=ty, geometry=g)`: pydantic runs
`validate_geometry` (a `model_validator(mode='after')`), which also
initializes the default transform. -/
def mkShape (ty : ShapeType) (g : GeomDict) : Except PyError Shape :=
  (validate_geometry ty g).map fun _ => ⟨ty, g, {}⟩

/-- Plain attribute assignment `shape.geometry = g`: with no
`validate_assignment` config, pydantic re-runs no validator. -/
def Shape.set_geometry (s : Shape) (g : GeomDict) : Shape :=
  { s with geometry := g }

/-- Plain attribute assignment `shape.type = ty` (no re-validation). -/
def Shape.set_type (s : Shape) (ty : ShapeType) : Shape :=
  { s with type := ty }

/-- Python `min` over a list; `none` models the `ValueError` on an empty
list (never reached: the caller guards with `if not points`). -/
def listMin (l : List ℚ) : Option ℚ :=
  match l with
  | [] => none
  | x :: xs => some (xs.foldl min x)

/-- Python `max` over a list. -/
def listMax (l : List ℚ) : Option ℚ :=
  match l with
  | [] => none
  | x :: xs => some (xs.foldl max x)

/-- Models `[point[0] for point in points]`; `none` when some entry has no
numeric first element (a runtime error in Python, unreachable on
validated geometry). -/
def coordsX : List PyElem → Option (List ℚ)
  | [] => some []
  | .list (.num x :: _) :: rest => (coordsX rest).map fun xs => x :: xs
  | _ => none

/-- Models `[point[1] for point in points]`. -/
def coordsY : List PyElem → Option (List ℚ)
  | [] => some []
  | .list (_ :: .num y :: _) :: rest => (coordsY rest).map fun ys => y :: ys
  | _ => none

/-- Axis-aligned bounding box `(min_x, min_y, max_x, max_y)`. -/
structure Bounds where
  min_x : ℚ
  min_y : ℚ
  max_x : ℚ
  max_y : ℚ
deriving DecidableEq, Repr

/-- Embeds `Shape._calculate_base_bounds` (`shapes.py` lines 219-253):
the per-kind local box, `none` for Path and Group and for an empty points
list. -/
def calculate_base_bounds (ty : ShapeType) (g : GeomDict) : Option Bounds :=
  match ty with
  | .rectangle =>
    match getKey g "width", getKey g "height" with
    | some (.num w), some (.num h) => some ⟨0, 0, w, h⟩
    | _, _ => none
  | .circle =>
    match getKey g "radius" with
    | some (.num r) => some ⟨-r, -r, r, r⟩
    | _ => none
  | .ellipse =>
    match getKey g "rx", getKey g "ry" with
    | some (.num rx), some (.num ry) => some ⟨-rx, -ry, rx, ry⟩
    | _, _ => none
  | .line =>
    match getKey g "x1", getKey g "y1", getKey g "x2", getKey g "y2" with
    | some (.num x1), some (.num y1), some (.num x2), some (.num y2) =>
      some ⟨min x1 x2, min y1 y2, max x1 x2, max y1 y2⟩
    | _, _, _, _ => none
  | .polyline | .polygon =>
    match getKey g "points" with
    | some (.list pts) =>
      if pts = [] then none
      else
        match coordsX pts, coordsY pts with
        | some xs, some ys =>
          match listMin xs, listMin ys, listMax xs, listMax ys with
          | some mnx, some mny, some mxx, some mxy => some ⟨mnx, mny, mxx, mxy⟩
          | _, _, _, _ => none
        | _, _ => none
    | _ => none
  | .path | .group => none

/-- Embeds `Shape.get_bounds` (`shapes.py` lines 194-217): the base bounds
translated by the transform's x and y only. -/
def Shape.get_bounds (s : Shape) : Option Bounds :=
  (calculate_base_bounds s.type s.geometry).map fun b =>
    ⟨b.min_x + s.transform.x, b.min_y + s.transform.y,
     b.max_x + s.transform.x, b.max_y + s.transform.y⟩

/-! ### LayerGroup child containment (`layers.py`, `LayerGroup.add_child` /
`remove_child`)

`add_child`/`remove_child` mutate Python objects linked by references.  The
object graph is abstracted as a heap: `children` maps a group id to the
ordered list of ids of its children, `parent` maps a node id to the
`parent_id` back-reference stored on that node. -/

/-- Heap abstraction of the `LayerGroup`/`Layer` object graph. -/
structure GroupHeap where
  children : String → List String
  parent : String → Option String

/-- The heap with no containment and no back-references. -/
def emptyHeap : GroupHeap := ⟨fun _ => [], fun _ => none⟩

/-- Embeds `LayerGroup.add_child` (`layers.py` lines 126-129) on group `g`:
set the child's `parent_id` to `g` and append it to `g`'s children.  The
child is not detached from any previous container. -/
def addChild (s : GroupHeap) (g c : String) : GroupHeap :=
  { children := fun x => if x = g then s.children g ++ [c] else s.children x
    parent := fun x => if x = c then some g else s.parent x }

/-- Embeds `LayerGroup.remove_child` (`layers.py` lines 131-154) on group
`g`: remove the first child equal to (or with id equal to) `c`, clear its
`parent_id`, return `true`; `false` and no change when absent. -/
def removeChild (s : GroupHeap) (g c : String) : GroupHeap × Bool :=
  if c ∈ s.children g then
    ({ children := fun x => if x = g then (s.children g).erase c else s.children x
       parent := fun x => if x = c then none else s.parent x }, true)
  else (s, false)

/-- The containment/back-reference consistency invariant of the claim: a
node is contained at most once overall, its `parent_id` matches its
container, and a `parent_id` is only set while contained. -/
def HeapConsistent (s : GroupHeap) : Prop :=
  (∀ c g1 g2, c ∈ s.children g1 → c ∈ s.children g2 → g1 = g2) ∧
  (∀ c g, c ∈ s.children g → (s.children g).count c = 1) ∧
  (∀ c g, c ∈ s.children g → s.parent c = some g) ∧
  (∀ c g, s.parent c = some g → c ∈ s.children g)

/-! ### Layer hierarchy and manager (`layers.py`, `LayerManager`)

The tree under the root group is modelled by `LNode`; the manager state
keeps the root group's id, its ordered children (the forest) and the
active layer id.  Layer payloads (name, shapes, flags) are irrelevant to
the reachability claims and are elided. -/

/-- A node of the layer tree: a `Layer` leaf or a `LayerGroup` with
ordered children. -/
inductive LNode where
  | layer (id : String)
  | group (id : String) (children : List LNode)

/-- The `id` attribute of a node. -/
def LNode.nodeId : LNode → String
  | .layer i => i
  | .group i _ => i

/-- Embeds `LayerGroup.find_layer_by_id(recursive=True)` (`layers.py`
lines 226-244) applied to a group with this forest of children: scan
children in order, matching layers by id and recursing into groups. -/
def findLayerF : List LNode → String → Bool
  | [], _ => false
  | .layer i :: rest, a => i = a || findLayerF rest a
  | .group _ cs :: rest, a => findLayerF cs a || findLayerF rest a

/-- Embeds the existence content of `LayerGroup.find_group_by_id`
(`layers.py` lines 246-268) over a forest of children (the calling
group's own id is checked separately by the caller). -/
def findGroupF : List LNode → String → Bool
  | [], _ => false
  | .layer _ :: rest, g => findGroupF rest g
  | .group i cs :: rest, g => i = g || findGroupF cs g || findGroupF rest g

/-- Embeds `target_group.add_child(node)` where `target_group` is the live
group with id `g`: append `n` to the children of the first group with
that id (pre-order: a node's own id before its subtree). -/
def addToGroupF (forest : List LNode) (g : String) (n : LNode) : List LNode :=
  match forest with
  | [] => []
  | .layer i :: rest => .layer i :: addToGroupF rest g n
  | .group i cs :: rest =>
    if i = g then .group i (cs ++ [n]) :: rest
    else if findGroupF cs g then .group i (addToGroupF cs g n) :: rest
    else .group i cs :: addToGroupF rest g n

/-- Embeds `LayerManager._find_parent_group` (`layers.py` lines 428-440)
combined with `parent.remove_child(id)`: scanning the forest in the
parent-search order, remove the first node whose id is `x`; the Boolean
reports whether a node was removed. -/
def removeByIdF : List LNode → String → List LNode × Bool
  | [], _ => ([], false)
  | c :: rest, x =>
    if c.nodeId = x then (rest, true)
    else
      match c with
      | .layer i =>
        let r := removeByIdF rest x
        (.layer i :: r.1, r.2)
      | .group i cs =>
        let inner := removeByIdF cs x
        if inner.2 then (.group i inner.1 :: rest, true)
        else
          let r := removeByIdF rest x
          (.group i cs :: r.1, r.2)

/-- All node ids of a forest, pre-order. -/
def idsF : List LNode → List String
  | [] => []
  | .layer i :: rest => i :: idsF rest
  | .group i cs :: rest => i :: (idsF cs ++ idsF rest)

/-- Embeds the `LayerManager` state (`layers.py`): the root group's id,
its children, and the active layer id. -/
structure LayerManager where
  rootId : String
  forest : List LNode
  active : Option String

/-- Embeds `LayerManager()`: a fresh root group (named "Root") with no
children and no active layer. -/
def mkLayerManager (rootId : String) : LayerManager := ⟨rootId, [], none⟩

/-- Embeds `LayerManager.create_layer` (`layers.py` lines 289-308): add a
fresh layer with id `lid` under the parent group (`none` = the root
group), then make it active if no layer is active. -/
def create_layer (m : LayerManager) (lid : String) (pg : Option String) :
    LayerManager :=
  let forest :=
    match pg with
    | none => m.forest ++ [.layer lid]
    | some g =>
      if g = m.rootId then m.forest ++ [.layer lid]
      else addToGroupF m.forest g (.layer lid)
  { m with
    forest := forest
    active := if m.active = none then some lid else m.active }

/-- Embeds `LayerManager.create_group` (`layers.py` lines 310-324): add a
fresh empty group with id `gid` under the parent group (`none` = root). -/
def create_group (m : LayerManager) (gid : String) (pg : Option String) :
    LayerManager :=
  let forest :=
    match pg with
    | none => m.forest ++ [.group gid []]
    | some g =>
      if g = m.rootId then m.forest ++ [.group gid []]
      else addToGroupF m.forest g (.group gid [])
  { m with forest := forest }

/-- Embeds `LayerManager.delete_layer` (`layers.py` lines 326-351): when a
layer with this id is reachable, remove the first node with that id from
its parent and clear `active_layer_id` if it was this id; otherwise no
change. -/
def delete_layer (m : LayerManager) (lid : String) : LayerManager :=
  if findLayerF m.forest lid then
    { m with
      forest := (removeByIdF m.forest lid).1
      active := if m.active = some lid then none else m.active }
  else m

/-- Embeds `LayerManager.delete_group` (`layers.py` lines 353-375): refuse
the root group's id; otherwise, when the group is reachable, remove the
first node with that id.  `active_layer_id` is not touched. -/
def delete_group (m : LayerManager) (gid : String) : LayerManager :=
  if gid = m.rootId then m
  else if findGroupF m.forest gid then
    { m with forest := (removeByIdF m.forest gid).1 }
  else m

/-- Embeds `LayerManager.set_active_layer` (`layers.py` lines 394-407):
set the active id only when a layer with that id is reachable. -/
def set_active_layer (m : LayerManager) (lid : String) : LayerManager :=
  if findLayerF m.forest lid then { m with active := some lid } else m

/-- The invariant of claim C3: the active layer id, when set, refers to a
layer reachable from the root group. -/
def ActiveReachable (m : LayerManager) : Prop :=
  ∀ a, m.active = some a → findLayerF m.forest a = true

/-! ## Theorems -/

/-- Claim C9: `to_pixels` leaves pixel sizes unchanged, multiplies inches
by dpi, divides millimeters by 25.4, centimeters by 2.54 and points by 72
before multiplying by dpi, and passes any unrecognized unit through
unchanged rather than erroring. -/
theorem c9_to_pixels_units :
    (∀ w h dpi : ℚ, CanvasSize.to_pixels ⟨w, h, "px"⟩ dpi = (w, h)) ∧
    (∀ w h dpi : ℚ, CanvasSize.to_pixels ⟨w, h, "in"⟩ dpi = (w * dpi, h * dpi)) ∧
    (∀ w h dpi : ℚ,
      CanvasSize.to_pixels ⟨w, h, "mm"⟩ dpi = (w / 25.4 * dpi, h / 25.4 * dpi)) ∧
    (∀ w h dpi : ℚ,
      CanvasSize.to_pixels ⟨w, h, "cm"⟩ dpi = (w / 2.54 * dpi, h / 2.54 * dpi)) ∧
    (∀ w h dpi : ℚ,
      CanvasSize.to_pixels ⟨w, h, "pt"⟩ dpi = (w / 72 * dpi, h / 72 * dpi)) ∧
    (∀ u, u ∉ (["px", "in", "mm", "cm", "pt"] : List String) →
      ∀ w h dpi : ℚ, CanvasSize.to_pixels ⟨w, h, u⟩ dpi = (w, h)) := by
  refine ⟨?_, ?_, ?_, ?_, ?_, ?_⟩
  · intro w h dpi; simp [CanvasSize.to_pixels]
  · intro w h dpi; simp [CanvasSize.to_pixels]
  · intro w h dpi; simp [CanvasSize.to_pixels]
  · intro w h dpi; simp [CanvasSize.to_pixels]
  · intro w h dpi; simp [CanvasSize.to_pixels]; norm_num
  · intro u hu w h dpi
    simp only [List.mem_cons, List.not_mem_nil, or_false, not_or] at hu
    obtain ⟨h1, h2, h3, h4, h5⟩ := hu
    simp [CanvasSize.to_pixels, h1, h2, h3, h4, h5]

/-- Claim C9 witness: instantiation of the pass-through conjunct at a
concrete unrecognized unit, plus the mm conversion at concrete sizes. -/
theorem c9_to_pixels_units_witness :
    CanvasSize.to_pixels ⟨100, 50, "furlong"⟩ 96 = (100, 50) ∧
    CanvasSize.to_pixels ⟨254, 508, "mm"⟩ 10 = (100, 200) := by
  constructor
  · exact c9_to_pixels_units.2.2.2.2.2 "furlong" (by decide) 100 50 96
  · have h := c9_to_pixels_units.2.2.1 254 508 10
    rw [h]; norm_num

/-- Claim C10: `add_shape` is a no-op when the element is already in the
shape list, and adding the same element twice equals adding it once. -/
theorem c10_add_shape_idempotent (α : Type) [DecidableEq α] :
    (∀ (l : List α) (s : α), s ∈ l → add_shape l s = l) ∧
    (∀ (l : List α) (s : α), add_shape (add_shape l s) s = add_shape l s) := by
  constructor
  · intro l s h
    simp [add_shape, h]
  · intro l s
    by_cases h : s ∈ l
    · simp [add_shape, h]
    · have hmem : s ∈ l ++ [s] := by simp
      simp [add_shape, h, hmem]

/-- Claim C10 witness: concrete instantiations of both conjuncts. -/
theorem c10_add_shape_idempotent_witness :
    add_shape [1, 2] (1 : ℕ) = [1, 2] ∧
    add_shape (add_shape [1, 2] (3 : ℕ)) 3 = add_shape [1, 2] 3 := by
  constructor
  · exact (c10_add_shape_idempotent ℕ).1 [1, 2] 1 (by decide)
  · exact (c10_add_shape_idempotent ℕ).2 [1, 2] 3

/-- Helper: `extractFirst` misses when no element satisfies the test. -/
theorem extractFirst_eq_none {α : Type} (p : α → Bool) (l : List α)
    (h : ∀ x ∈ l, p x = false) : extractFirst p l = none := by
  induction l with
  | nil => rfl
  | cons x xs ih =>
    have hx := h x (by simp)
    simp [extractFirst, hx, ih fun y hy => h y (by simp [hy])]

/-- Helper: `extractFirst` pops the first matching element. -/
theorem extractFirst_append {α : Type} (p : α → Bool) (pre : List α) (x : α)
    (post : List α) (hpre : ∀ y ∈ pre, p y = false) (hx : p x = true) :
    extractFirst p (pre ++ x :: post) = some (x, pre ++ post) := by
  induction pre with
  | nil => simp [extractFirst, hx]
  | cons y ys ih =>
    have hy := hpre y (by simp)
    have ih' := ih fun z hz => hpre z (by simp [hz])
    simp [extractFirst, hy, ih']

/-- Claim C7: moving a contained element pops it and re-inserts it at the
index clamped to `[0, length-after-removal]`, returning `true`; moving an
absent element returns `false` and leaves the list unchanged — for both
`Layer.move_shape` and the id-based `LayerGroup.move_child`. -/
theorem c7_move_clamps (α : Type) [DecidableEq α] :
    (∀ (pre post : List α) (s : α) (n : ℤ), s ∉ pre →
      move_shape (pre ++ s :: post) s n =
        ((pre ++ post).insertIdx (max 0 (min n ((pre ++ post).length : ℤ))).toNat s,
          true)) ∧
    (∀ (l : List α) (s : α) (n : ℤ), s ∉ l → move_shape l s n = (l, false)) ∧
    (∀ (idOf : α → String) (pre post : List α) (c : α) (cid : String) (n : ℤ),
      (∀ p ∈ pre, idOf p ≠ cid) → idOf c = cid →
      move_child_by_id idOf (pre ++ c :: post) cid n =
        ((pre ++ post).insertIdx (max 0 (min n ((pre ++ post).length : ℤ))).toNat c,
          true)) ∧
    (∀ (idOf : α → String) (children : List α) (cid : String) (n : ℤ),
      (∀ p ∈ children, idOf p ≠ cid) →
      move_child_by_id idOf children cid n = (children, false)) := by
  refine ⟨?_, ?_, ?_, ?_⟩
  · intro pre post s n hs
    have he : extractFirst (fun x => decide (x = s)) (pre ++ s :: post) =
        some (s, pre ++ post) := by
      apply extractFirst_append
      · intro y hy
        simp only [decide_eq_false_iff_not]
        intro rfl_eq; exact hs (rfl_eq ▸ hy)
      · simp
    simp [move_shape, he]
  · intro l s n hs
    have he : extractFirst (fun x => decide (x = s)) l = none := by
      apply extractFirst_eq_none
      intro y hy
      simp only [decide_eq_false_iff_not]
      intro rfl_eq; exact hs (rfl_eq ▸ hy)
    simp [move_shape, he]
  · intro idOf pre post c cid n hpre hc
    have he : extractFirst (fun x => decide (idOf x = cid)) (pre ++ c :: post) =
        some (c, pre ++ post) := by
      apply extractFirst_append
      · intro y hy; simp [hpre y hy]
      · simp [hc]
    simp [move_child_by_id, he]
  · intro idOf children cid n h
    have he : extractFirst (fun x => decide (idOf x = cid)) children = none := by
      apply extractFirst_eq_none
      intro y hy; simp [h y hy]
    simp [move_child_by_id, he]

/-- Claim C7 witness: in a 3-element layer an out-of-range index 999 is
clamped to the end (index 2 after removal), and moving an absent element
returns `false` with the order unchanged. -/
theorem c7_move_clamps_witness :
    move_shape [10, 20, 30] (10 : ℕ) 999 = ([20, 30, 10], true) ∧
    move_shape [10, 20, 30] (99 : ℕ) 5 = ([10, 20, 30], false) := by
  constructor
  · have h := (c7_move_clamps ℕ).1 [] [20, 30] 10 999 (by simp)
    simpa using h
  · exact (c7_move_clamps ℕ).2.1 [10, 20, 30] 99 5 (by decide)

/-- Claim C5 counterexample: constructing a gradient with fewer than 2
stops fails with pydantic's `ValidationError` (from the `min_length=2`
field constraint), not with an `InvalidStyleError` as the claim states. -/
theorem c5_counterexample :
    mkLinearGradient "g" 0 0 1 1 [⟨0, Color.rgb ⟨0, 0, 0⟩⟩] =
      .error .validationError ∧
    PyError.validationError ≠
      PyError.styleError "Gradient must have at least 2 color stops" := by
  exact ⟨rfl, by decide⟩

/-- Claim C5 (amended): a constructed gradient stores its stops sorted
ascending by position (a permutation of the input with pairwise-distinct
positions); duplicate positions always fail with a `StyleError`; fewer
than 2 stops always fail, but with pydantic's `ValidationError` from the
`min_length=2` field constraint rather than a `StyleError`.  Concretely,
positions [0.3, 0.1, 0.7] are stored as [0.1, 0.3, 0.7] and [0.2, 0.2]
always fails with a `StyleError`. -/
theorem c5_gradient_stops :
    (∀ v r, validate_stops v = .ok r →
      List.Sorted stopLE r ∧ r.Perm v ∧ (r.map fun s => s.position).Nodup) ∧
    (∀ v, ¬ (v.map fun s => s.position).Nodup →
      validate_stops v =
        .error (.styleError "Gradient stops cannot have duplicate positions")) ∧
    (∀ id sx sy ex ey (stops : List GradientStop), stops.length < 2 →
      mkLinearGradient id sx sy ex ey stops = .error .validationError) ∧
    (∀ id cx cy rr (stops : List GradientStop), stops.length < 2 →
      mkRadialGradient id cx cy rr stops = .error .validationError) ∧
    (∀ id sx sy ex ey stops g, mkLinearGradient id sx sy ex ey stops = .ok g →
      validate_stops stops = .ok g.stops) ∧
    (∀ id cx cy rr stops g, mkRadialGradient id cx cy rr stops = .ok g →
      validate_stops stops = .ok g.stops) ∧
    (∀ c1 c2 c3 : Color,
      validate_stops [⟨0.3, c1⟩, ⟨0.1, c2⟩, ⟨0.7, c3⟩] =
        .ok [⟨0.1, c2⟩, ⟨0.3, c1⟩, ⟨0.7, c3⟩]) ∧
    (∀ c1 c2 : Color,
      validate_stops [⟨0.2, c1⟩, ⟨0.2, c2⟩] =
        .error (.styleError "Gradient stops cannot have duplicate positions")) := by
  have hperm : ∀ v : List GradientStop, (List.insertionSort stopLE v).Perm v :=
    fun v => List.perm_insertionSort stopLE v
  refine ⟨?_, ?_, ?_, ?_, ?_, ?_, ?_, ?_⟩
  · intro v r h
    unfold validate_stops at h
    split at h
    · exact absurd h (by simp)
    · split at h
      · rename_i hnd
        obtain rfl : List.insertionSort stopLE v = r := by
          simpa using h
        exact ⟨List.sorted_insertionSort stopLE v, hperm v, hnd⟩
      · exact absurd h (by simp)
  · intro v hnd
    unfold validate_stops
    split
    · rename_i hlt
      exfalso
      apply hnd
      match v, hlt with
      | [], _ => simp
      | [s], _ => simp
    · split
      · rename_i hnd2
        exfalso
        exact hnd (((hperm v).map fun s => s.position).nodup_iff.mp hnd2)
      · rfl
  · intro id sx sy ex ey stops h
    simp [mkLinearGradient, h]
  · intro id cx cy rr stops h
    simp [mkRadialGradient, h]
  · intro id sx sy ex ey stops g h
    unfold mkLinearGradient at h
    split at h
    · exact absurd h (by simp)
    · cases hv : validate_stops stops with
      | error e => rw [hv] at h; exact absurd h (by simp [Except.map])
      | ok st =>
        rw [hv] at h
        simp only [Except.map, Except.ok.injEq] at h
        subst h
        rfl
  · intro id cx cy rr stops g h
    unfold mkRadialGradient at h
    split at h
    · exact absurd h (by simp)
    · cases hv : validate_stops stops with
      | error e => rw [hv] at h; exact absurd h (by simp [Except.map])
      | ok st =>
        rw [hv] at h
        simp only [Except.map, Except.ok.injEq] at h
        subst h
        rfl
  · intro c1 c2 c3
    norm_num [validate_stops, List.insertionSort, List.orderedInsert, stopLE]
  · intro c1 c2
    norm_num [validate_stops, List.insertionSort, List.orderedInsert, stopLE]

/-- Claim C5 witness: the concrete sort and duplicate-failure conjuncts at
a concrete color, and the short-stop-list conjunct at an empty list. -/
theorem c5_gradient_stops_witness :
    validate_stops
        [⟨0.3, Color.rgb ⟨0, 0, 0⟩⟩, ⟨0.1, Color.rgb ⟨0, 0, 0⟩⟩,
         ⟨0.7, Color.rgb ⟨0, 0, 0⟩⟩] =
      .ok [⟨0.1, Color.rgb ⟨0, 0, 0⟩⟩, ⟨0.3, Color.rgb ⟨0, 0, 0⟩⟩,
           ⟨0.7, Color.rgb ⟨0, 0, 0⟩⟩] ∧
    validate_stops [⟨0.2, Color.rgb ⟨0, 0, 0⟩⟩, ⟨0.2, Color.rgb ⟨0, 0, 0⟩⟩] =
      .error (.styleError "Gradient stops cannot have duplicate positions") ∧
    mkRadialGradient "r" 0.5 0.5 0.5 [] = .error .validationError := by
  refine ⟨?_, ?_, ?_⟩
  · exact c5_gradient_stops.2.2.2.2.2.2.1 _ _ _
  · exact c5_gradient_stops.2.1 _ (by simp)
  · exact c5_gradient_stops.2.2.2.1 "r" 0.5 0.5 0.5 [] (by decide)

/-- Claim C6 counterexample: mutating an already-constructed solid fill's
tag to `pattern` without pattern data does not fail and does not clear the
stale color payload — pydantic does not re-validate on assignment. -/
theorem c6_counterexample :
    mkFillProperties ⟨.solid, some (Color.rgb ⟨1, 2, 3⟩), none, none, none, 1⟩ =
      .ok ⟨.solid, some (Color.rgb ⟨1, 2, 3⟩), none, none, none, 1⟩ ∧
    setFillType ⟨.solid, some (Color.rgb ⟨1, 2, 3⟩), none, none, none, 1⟩ .pattern =
      ⟨.pattern, some (Color.rgb ⟨1, 2, 3⟩), none, none, none, 1⟩ ∧
    (setFillType ⟨.solid, some (Color.rgb ⟨1, 2, 3⟩), none, none, none, 1⟩
        .pattern).pattern = none ∧
    (setFillType ⟨.solid, some (Color.rgb ⟨1, 2, 3⟩), none, none, none, 1⟩
        .pattern).color = some (Color.rgb ⟨1, 2, 3⟩) :=
  ⟨rfl, rfl, rfl, rfl⟩

/-- Claim C6 (amended): at construction, a missing payload for the active
tag fails with a `StyleError`, and a constructed fill has exactly the
payload matching its tag populated with all others cleared to `None`; but
a later mutation of the tag is a plain field assignment — it is not
re-validated and clears nothing. -/
theorem c6_fill_consistency :
    (∀ f : FillProperties,
      (match f.type with
       | .solid => f.color = none →
          mkFillProperties f = .error (.styleError "Solid fill requires a color")
       | .linearGradient => f.linear_gradient = none →
          mkFillProperties f =
            .error (.styleError "Linear gradient fill requires linear_gradient data")
       | .radialGradient => f.radial_gradient = none →
          mkFillProperties f =
            .error (.styleError "Radial gradient fill requires radial_gradient data")
       | .pattern => f.pattern = none →
          mkFillProperties f =
            .error (.styleError "Pattern fill requires pattern data"))) ∧
    (∀ f g : FillProperties, mkFillProperties f = .ok g →
      g.type = f.type ∧ g.opacity = f.opacity ∧
      (match f.type with
       | .solid => g.color = f.color ∧ f.color ≠ none ∧
          g.linear_gradient = none ∧ g.radial_gradient = none ∧ g.pattern = none
       | .linearGradient => g.color = none ∧
          g.linear_gradient = f.linear_gradient ∧ f.linear_gradient ≠ none ∧
          g.radial_gradient = none ∧ g.pattern = none
       | .radialGradient => g.color = none ∧ g.linear_gradient = none ∧
          g.radial_gradient = f.radial_gradient ∧ f.radial_gradient ≠ none ∧
          g.pattern = none
       | .pattern => g.color = none ∧ g.linear_gradient = none ∧
          g.radial_gradient = none ∧ g.pattern = f.pattern ∧ f.pattern ≠ none)) ∧
    (∀ (g : FillProperties) (t : FillType),
      (setFillType g t).type = t ∧ (setFillType g t).color = g.color ∧
      (setFillType g t).linear_gradient = g.linear_gradient ∧
      (setFillType g t).radial_gradient = g.radial_gradient ∧
      (setFillType g t).pattern = g.pattern) := by
  refine ⟨?_, ?_, ?_⟩
  · rintro ⟨ty, co, lg, rg, pa, op⟩
    cases ty <;> intro h <;> subst h <;>
      simp [mkFillProperties, validate_fill_consistency]
  · rintro ⟨ty, co, lg, rg, pa, op⟩ g h
    cases ty
    · cases co with
      | none => simp [mkFillProperties, validate_fill_consistency] at h
      | some c =>
        simp [mkFillProperties, validate_fill_consistency] at h
        subst h
        simp
    · cases lg with
      | none => simp [mkFillProperties, validate_fill_consistency] at h
      | some x =>
        simp [mkFillProperties, validate_fill_consistency] at h
        subst h
        simp
    · cases rg with
      | none => simp [mkFillProperties, validate_fill_consistency] at h
      | some x =>
        simp [mkFillProperties, validate_fill_consistency] at h
        subst h
        simp
    · cases pa with
      | none => simp [mkFillProperties, validate_fill_consistency] at h
      | some x =>
        simp [mkFillProperties, validate_fill_consistency] at h
        subst h
        simp
  · intro g t
    simp [setFillType]

/-- Claim C6 witness: the missing-payload conjunct at a concrete
linear-gradient fill without payload, and the mutation conjunct at a
concrete fill. -/
theorem c6_fill_consistency_witness :
    mkFillProperties ⟨.linearGradient, none, none, none, none, 1⟩ =
      .error (.styleError "Linear gradient fill requires linear_gradient data") ∧
    (setFillType ⟨.solid, some (Color.rgb ⟨9, 9, 9⟩), none, none, none, 1⟩
        .radialGradient).type = .radialGradient := by
  constructor
  · exact c6_fill_consistency.1 ⟨.linearGradient, none, none, none, none, 1⟩ rfl
  · exact (c6_fill_consistency.2.2
      ⟨.solid, some (Color.rgb ⟨9, 9, 9⟩), none, none, none, 1⟩ .radialGradient).1

/-- Claim C2 counterexample: a validly constructed rectangle shape can be
mutated in place to an invalid geometry (width −1): the assignment raises
nothing and replaces the previously valid state, because no model sets
`validate_assignment` and pydantic therefore does not re-validate. -/
theorem c2_counterexample :
    mkShape .rectangle [("width", .num 100), ("height", .num 50)] =
      .ok ⟨.rectangle, [("width", .num 100), ("height", .num 50)], {}⟩ ∧
    Shape.set_geometry ⟨.rectangle, [("width", .num 100), ("height", .num 50)], {}⟩
        [("width", .num (-1)), ("height", .num 50)] =
      ⟨.rectangle, [("width", .num (-1)), ("height", .num 50)], {}⟩ ∧
    validate_geometry .rectangle [("width", .num (-1)), ("height", .num 50)] =
      .error (.geometryError "Rectangle width must be a positive number") ∧
    (⟨.rectangle, [("width", .num (-1)), ("height", .num 50)], {}⟩ : Shape) ≠
      ⟨.rectangle, [("width", .num 100), ("height", .num 50)], {}⟩ := by
  refine ⟨rfl, rfl, rfl, by decide⟩

/-- Claim C2 (amended): validation runs on every construction — a shape is
constructed iff its geometry passes the type-specific validator, and an
invalid payload (e.g. rectangle width −1) fails with a `GeometryError` —
but in-place mutation of `geometry` or `type` is a plain, unvalidated
field assignment that replaces the state. -/
theorem c2_construction_validates :
    (∀ ty g s, mkShape ty g = .ok s →
      validate_geometry ty g = .ok () ∧ s.type = ty ∧ s.geometry = g) ∧
    (∀ ty g e, validate_geometry ty g = .error e → mkShape ty g = .error e) ∧
    (∀ (s : Shape) (g : GeomDict),
      (Shape.set_geometry s g).geometry = g ∧
      (Shape.set_geometry s g).type = s.type) ∧
    (∀ (s : Shape) (ty : ShapeType),
      (Shape.set_type s ty).type = ty ∧
      (Shape.set_type s ty).geometry = s.geometry) ∧
    mkShape .rectangle [("width", .num 100), ("height", .num 50)] =
      .ok ⟨.rectangle, [("width", .num 100), ("height", .num 50)], {}⟩ ∧
    mkShape .rectangle [("width", .num (-1)), ("height", .num 50)] =
      .error (.geometryError "Rectangle width must be a positive number") := by
  refine ⟨?_, ?_, ?_, ?_, rfl, rfl⟩
  · intro ty g s h
    unfold mkShape at h
    cases hv : validate_geometry ty g with
    | error e => rw [hv] at h; exact absurd h (by simp [Except.map])
    | ok u =>
      cases u
      rw [hv] at h
      simp only [Except.map, Except.ok.injEq] at h
      subst h
      exact ⟨rfl, rfl, rfl⟩
  · intro ty g e h
    simp [mkShape, h, Except.map]
  · intro s g
    simp [Shape.set_geometry]
  · intro s ty
    simp [Shape.set_type]

/-- Claim C2 witness: the construction conjuncts at the concrete valid and
invalid rectangles. -/
theorem c2_construction_validates_witness :
    validate_geometry .rectangle [("width", .num 100), ("height", .num 50)] =
      .ok () ∧
    mkShape .circle [("radius", .num 0)] =
      .error (.geometryError "Circle radius must be a positive number") := by
  constructor
  · exact (c2_construction_validates.1 .rectangle
      [("width", .num 100), ("height", .num 50)]
      ⟨.rectangle, [("width", .num 100), ("height", .num 50)], {}⟩
      c2_construction_validates.2.2.2.2.1).1
  · exact c2_construction_validates.2.1 .circle [("radius", .num 0)]
      (.geometryError "Circle radius must be a positive number") rfl

/-- Helper: a numeric-key check yields a numeric value. -/
theorem isNumKey_exists {g : GeomDict} {k : String} (h : isNumKey g k = true) :
    ∃ x : ℚ, getKey g k = some (.num x) := by
  unfold isNumKey at h
  split at h
  · rename_i x heq; exact ⟨x, heq⟩
  · exact absurd h (by simp)

/-- Helper: a point list that passes the polyline/polygon per-point loop
has extractable x and y coordinate lists. -/
theorem validatePoints_coords {pts : List PyElem}
    (h : validatePoints pts = .ok ()) :
    ∃ xs ys, coordsX pts = some xs ∧ coordsY pts = some ys ∧
      xs.length = pts.length ∧ ys.length = pts.length := by
  induction pts with
  | nil => exact ⟨[], [], rfl, rfl, rfl, rfl⟩
  | cons p rest ih =>
    unfold validatePoints at h
    split at h
    · exact absurd h (by simp)
    · split at h
      · exact absurd h (by simp)
      · rename_i hshape hnums
        simp only [Bool.not_eq_true, not_not] at hshape hnums
        obtain ⟨xs, ys, hx, hy, hlx, hly⟩ := ih h
        cases p with
        | atom a => simp [pointShapeOk] at hshape
        | list l =>
          match l, hshape, hnums with
          | [a, b], _, hnums =>
            cases a with
            | str s => simp [pointNumsOk] at hnums
            | num x =>
              cases b with
              | str s => simp [pointNumsOk] at hnums
              | num y =>
                refine ⟨x :: xs, y :: ys, ?_, ?_, by simp [hlx], by simp [hly]⟩
                · simp [coordsX] at hx ⊢
                  exact hx
                · simp [coordsY] at hy ⊢
                  exact hy

/-- Claim C8: `get_bounds` returns `none` for Path and Group, `none` for an
empty points list, and otherwise the per-kind local axis-aligned box —
Rectangle (0,0,w,h), Circle (−r,−r,r,r), Ellipse (−rx,−ry,rx,ry), Line
min/max of endpoints, Polyline/Polygon min/max over the point coordinates —
translated by exactly the transform's x and y; and on geometry that passes
the type-specific validator the required fields are present, so this
describes every valid shape. -/
theorem c8_get_bounds :
    (∀ (g : GeomDict) (t : Transform) (w h : ℚ),
      getKey g "width" = some (.num w) → getKey g "height" = some (.num h) →
      Shape.get_bounds ⟨.rectangle, g, t⟩ =
        some ⟨t.x, t.y, w + t.x, h + t.y⟩) ∧
    (∀ (g : GeomDict) (t : Transform) (r : ℚ),
      getKey g "radius" = some (.num r) →
      Shape.get_bounds ⟨.circle, g, t⟩ =
        some ⟨-r + t.x, -r + t.y, r + t.x, r + t.y⟩) ∧
    (∀ (g : GeomDict) (t : Transform) (rx ry : ℚ),
      getKey g "rx" = some (.num rx) → getKey g "ry" = some (.num ry) →
      Shape.get_bounds ⟨.ellipse, g, t⟩ =
        some ⟨-rx + t.x, -ry + t.y, rx + t.x, ry + t.y⟩) ∧
    (∀ (g : GeomDict) (t : Transform) (x1 y1 x2 y2 : ℚ),
      getKey g "x1" = some (.num x1) → getKey g "y1" = some (.num y1) →
      getKey g "x2" = some (.num x2) → getKey g "y2" = some (.num y2) →
      Shape.get_bounds ⟨.line, g, t⟩ =
        some ⟨min x1 x2 + t.x, min y1 y2 + t.y, max x1 x2 + t.x, max y1 y2 + t.y⟩) ∧
    (∀ (g : GeomDict) (t : Transform) (pts : List PyElem) (xs ys : List ℚ)
        (mnx mny mxx mxy : ℚ), getKey g "points" = some (.list pts) → pts ≠ [] →
      coordsX pts = some xs → coordsY pts = some ys →
      listMin xs = some mnx → listMin ys = some mny →
      listMax xs = some mxx → listMax ys = some mxy →
      Shape.get_bounds ⟨.polyline, g, t⟩ =
          some ⟨mnx + t.x, mny + t.y, mxx + t.x, mxy + t.y⟩ ∧
        Shape.get_bounds ⟨.polygon, g, t⟩ =
          some ⟨mnx + t.x, mny + t.y, mxx + t.x, mxy + t.y⟩) ∧
    (∀ (g : GeomDict) (t : Transform), getKey g "points" = some (.list []) →
      Shape.get_bounds ⟨.polyline, g, t⟩ = none ∧
        Shape.get_bounds ⟨.polygon, g, t⟩ = none) ∧
    (∀ (g : GeomDict) (t : Transform), Shape.get_bounds ⟨.path, g, t⟩ = none) ∧
    (∀ (g : GeomDict) (t : Transform), Shape.get_bounds ⟨.group, g, t⟩ = none) ∧
    (∀ g, validate_geometry .rectangle g = .ok () →
      ∃ w h : ℚ, getKey g "width" = some (.num w) ∧
        getKey g "height" = some (.num h)) ∧
    (∀ g, validate_geometry .circle g = .ok () →
      ∃ r : ℚ, getKey g "radius" = some (.num r)) ∧
    (∀ g, validate_geometry .ellipse g = .ok () →
      ∃ rx ry : ℚ, getKey g "rx" = some (.num rx) ∧
        getKey g "ry" = some (.num ry)) ∧
    (∀ g, validate_geometry .line g = .ok () →
      ∃ x1 y1 x2 y2 : ℚ, getKey g "x1" = some (.num x1) ∧
        getKey g "y1" = some (.num y1) ∧ getKey g "x2" = some (.num x2) ∧
        getKey g "y2" = some (.num y2)) ∧
    (∀ g, validate_geometry .polyline g = .ok () →
      ∃ pts xs ys, getKey g "points" = some (.list pts) ∧ 2 ≤ pts.length ∧
        coordsX pts = some xs ∧ coordsY pts = some ys) ∧
    (∀ g, validate_geometry .polygon g = .ok () →
      ∃ pts xs ys, getKey g "points" = some (.list pts) ∧ 3 ≤ pts.length ∧
        coordsX pts = some xs ∧ coordsY pts = some ys) := by
  refine ⟨?_, ?_, ?_, ?_, ?_, ?_, ?_, ?_, ?_, ?_, ?_, ?_, ?_, ?_⟩
  · intro g t w h hw hh
    simp [Shape.get_bounds, calculate_base_bounds, hw, hh]
  · intro g t r hr
    simp [Shape.get_bounds, calculate_base_bounds, hr]
  · intro g t rx ry hx hy
    simp [Shape.get_bounds, calculate_base_bounds, hx, hy]
  · intro g t x1 y1 x2 y2 h1 h2 h3 h4
    simp [Shape.get_bounds, calculate_base_bounds, h1, h2, h3, h4]
  · intro g t pts xs ys mnx mny mxx mxy hp hne hx hy hmnx hmny hmxx hmxy
    constructor <;>
      simp [Shape.get_bounds, calculate_base_bounds, hp, hne, hx, hy,
        hmnx, hmny, hmxx, hmxy]
  · intro g t hp
    constructor <;> simp [Shape.get_bounds, calculate_base_bounds, hp]
  · intro g t; rfl
  · intro g t; rfl
  · intro g h
    simp only [validate_geometry] at h
    unfold validate_rectangle_geometry at h
    split at h
    · exact absurd h (by simp)
    · split at h
      · rename_i w hw
        split at h
        · exact absurd h (by simp)
        · split at h
          · rename_i hval heq
            exact ⟨w, hval, hw, heq⟩
          · exact absurd h (by simp)
      · exact absurd h (by simp)
  · intro g h
    simp only [validate_geometry] at h
    unfold validate_circle_geometry at h
    split at h
    · exact absurd h (by simp)
    · split at h
      · rename_i r hr
        exact ⟨r, hr⟩
      · exact absurd h (by simp)
  · intro g h
    simp only [validate_geometry] at h
    unfold validate_ellipse_geometry at h
    split at h
    · exact absurd h (by simp)
    · split at h
      · rename_i rx hrx
        split at h
        · exact absurd h (by simp)
        · split at h
          · rename_i ry hry
            exact ⟨rx, ry, hrx, hry⟩
          · exact absurd h (by simp)
      · exact absurd h (by simp)
  · intro g h
    simp only [validate_geometry] at h
    unfold validate_line_geometry at h
    split at h
    · exact absurd h (by simp)
    · split at h
      · exact absurd h (by simp)
      · rename_i hnum
        simp only [not_not] at hnum
        obtain ⟨n1, n2, n3, n4⟩ := hnum
        obtain ⟨x1, h1⟩ := isNumKey_exists n1
        obtain ⟨y1, h2⟩ := isNumKey_exists n2
        obtain ⟨x2, h3⟩ := isNumKey_exists n3
        obtain ⟨y2, h4⟩ := isNumKey_exists n4
        exact ⟨x1, y1, x2, y2, h1, h2, h3, h4⟩
  · intro g h
    simp only [validate_geometry] at h
    unfold validate_polyline_geometry at h
    split at h
    · exact absurd h (by simp)
    · split at h
      · rename_i pts hp
        split at h
        · exact absurd h (by simp)
        · rename_i hlen
          obtain ⟨xs, ys, hx, hy, _, _⟩ := validatePoints_coords h
          exact ⟨pts, xs, ys, hp, by omega, hx, hy⟩
      · exact absurd h (by simp)
  · intro g h
    simp only [validate_geometry] at h
    unfold validate_polygon_geometry at h
    split at h
    · exact absurd h (by simp)
    · split at h
      · rename_i pts hp
        split at h
        · exact absurd h (by simp)
        · rename_i hlen
          obtain ⟨xs, ys, hx, hy, _, _⟩ := validatePoints_coords h
          exact ⟨pts, xs, ys, hp, by omega, hx, hy⟩
      · exact absurd h (by simp)

/-- Claim C8 witness: the rectangle conjunct at a concrete geometry and
transform, and the polyline conjunct at a concrete two-point line strip. -/
theorem c8_get_bounds_witness :
    Shape.get_bounds ⟨.rectangle, [("width", .num 3), ("height", .num 4)],
        { x := 10, y := 20 }⟩ = some ⟨10, 20, 13, 24⟩ ∧
    Shape.get_bounds ⟨.polyline,
        [("points", .list [.list [.num 1, .num 5], .list [.num 3, .num 2]])],
        {}⟩ = some ⟨1, 2, 3, 5⟩ := by
  constructor
  · have h := c8_get_bounds.1 [("width", .num 3), ("height", .num 4)]
      { x := 10, y := 20 } 3 4 rfl rfl
    rw [h]
    norm_num
  · have h := (c8_get_bounds.2.2.2.2.1
      [("points", .list [.list [.num 1, .num 5], .list [.num 3, .num 2]])] {}
      [.list [.num 1, .num 5], .list [.num 3, .num 2]] [1, 3] [5, 2] 1 2 3 5
      rfl (by simp) rfl rfl (by norm_num [listMin]) (by norm_num [listMin])
      (by norm_num [listMax]) (by norm_num [listMax])).1
    rw [h]
    norm_num

/-- Helper: each hex digit has value below 16, upper-casing preserves its
value, and `Nat.digitChar` maps its value to its lowercase form. -/
theorem hexDigit_facts : ∀ c ∈ hexDigits,
    hexVal c < 16 ∧ hexVal (Char.toUpper c) = hexVal c ∧
      Nat.digitChar (hexVal c) = Char.toLower c := by decide

/-- Helper: `isHexDig` decides membership in `hexDigits`. -/
theorem isHexDig_mem {c : Char} (h : isHexDig c = true) : c ∈ hexDigits :=
  of_decide_eq_true h

/-- Helper: formatting the byte read from an upper-cased hex pair prints
the lowercase form of the original pair. -/
theorem format02x_pair {c1 c2 : Char} (h1 : c1 ∈ hexDigits) (h2 : c2 ∈ hexDigits) :
    format02x (hexPairVal (Char.toUpper c1) (Char.toUpper c2)) =
      [Char.toLower c1, Char.toLower c2] := by
  obtain ⟨hv1, hu1, hd1⟩ := hexDigit_facts c1 h1
  obtain ⟨hv2, hu2, hd2⟩ := hexDigit_facts c2 h2
  unfold format02x hexPairVal
  rw [hu1, hu2]
  have e1 : (16 * hexVal c1 + hexVal c2) / 16 = hexVal c1 := by omega
  have e2 : (16 * hexVal c1 + hexVal c2) % 16 = hexVal c2 := by omega
  rw [e1, e2, hd1, hd2]

/-- Helper: Python `round` is the identity on integers. -/
theorem pyRound_intCast (n : ℤ) : pyRound (n : ℚ) = n := by
  unfold pyRound
  rw [Int.floor_intCast]
  norm_num

/-- Helper: the alpha byte survives `a = byte/255` followed by
`round(a * 255)` exactly (rational arithmetic). -/
theorem alpha_restore (n : ℕ) : pyRound ((n : ℚ) / 255 * 255) = n := by
  have h : ((n : ℚ) / 255 * 255) = ((n : ℤ) : ℚ) := by
    push_cast
    field_simp
  rw [h, pyRound_intCast]

/-- Helper: a list of length 6 is six explicit elements. -/
theorem exists_len6 {α : Type} {l : List α} (h : l.length = 6) :
    ∃ a b c d e f, l = [a, b, c, d, e, f] := by
  rcases l with _ | ⟨a, _ | ⟨b, _ | ⟨c, _ | ⟨d, _ | ⟨e, _ | ⟨f, _ | ⟨g, l⟩⟩⟩⟩⟩⟩⟩ <;>
    simp_all

/-- Helper: a list of length 8 is eight explicit elements. -/
theorem exists_len8 {α : Type} {l : List α} (h : l.length = 8) :
    ∃ a b c d e f g k, l = [a, b, c, d, e, f, g, k] := by
  rcases l with _ | ⟨a, _ | ⟨b, _ | ⟨c, _ | ⟨d, _ | ⟨e, _ | ⟨f, _ |
    ⟨g, _ | ⟨k, _ | ⟨m, l⟩⟩⟩⟩⟩⟩⟩⟩⟩ <;> simp_all

/-- Helper: the full round-trip computation for valid 6- or 8-digit
sources; shared by the C1 theorem and its counterexample. -/
theorem hexRoundTrip_spec (s : List Char)
    (hlen : (stripHash s).length = 6 ∨ (stripHash s).length = 8)
    (hhex : (stripHash s).all isHexDig = true) :
    hexRoundTrip s = some ('#' :: ((stripHash s).map Char.toLower ++
      (if (stripHash s).length = 6 then ['f', 'f'] else []))) ∧
    ((stripHash s).length = 6 → ∀ c, hexParseRGBA s = some c → c.a = 1) := by
  rcases hlen with h6 | h8
  · obtain ⟨c1, c2, c3, c4, c5, c6, ht⟩ := exists_len6 h6
    rw [ht] at hhex
    simp only [List.all_cons, List.all_nil, Bool.and_eq_true, Bool.and_true] at hhex
    obtain ⟨m1, m2, m3, m4, m5, m6⟩ := hhex
    have hparse : hexParseRGBA s = some
        ⟨hexPairVal (Char.toUpper c1) (Char.toUpper c2),
         hexPairVal (Char.toUpper c3) (Char.toUpper c4),
         hexPairVal (Char.toUpper c5) (Char.toUpper c6), 1⟩ := by
      simp [hexParseRGBA, validate_hex_color, ht, m1, m2, m3, m4, m5, m6,
        HexColor.to_rgba, Except.toOption]
    constructor
    · have halpha : (pyRound ((1 : ℚ) * 255)).toNat = 255 := by
        have h1 : ((1 : ℚ) * 255) = ((255 : ℤ) : ℚ) := by norm_num
        rw [h1, pyRound_intCast]
        rfl
      simp only [hexRoundTrip, hparse, Option.map_some']
      rw [ht]
      simp only [RGBAColor.to_hex, halpha,
        format02x_pair (isHexDig_mem m1) (isHexDig_mem m2),
        format02x_pair (isHexDig_mem m3) (isHexDig_mem m4),
        format02x_pair (isHexDig_mem m5) (isHexDig_mem m6)]
      have hff : format02x 255 = ['f', 'f'] := by decide
      simp [hff]
    · intro _ c hc
      rw [hparse] at hc
      cases hc
      rfl
  · obtain ⟨c1, c2, c3, c4, c5, c6, c7, c8, ht⟩ := exists_len8 h8
    rw [ht] at hhex
    simp only [List.all_cons, List.all_nil, Bool.and_eq_true, Bool.and_true] at hhex
    obtain ⟨m1, m2, m3, m4, m5, m6, m7, m8⟩ := hhex
    have hparse : hexParseRGBA s = some
        ⟨hexPairVal (Char.toUpper c1) (Char.toUpper c2),
         hexPairVal (Char.toUpper c3) (Char.toUpper c4),
         hexPairVal (Char.toUpper c5) (Char.toUpper c6),
         (hexPairVal (Char.toUpper c7) (Char.toUpper c8) : ℚ) / 255⟩ := by
      simp [hexParseRGBA, validate_hex_color, ht, m1, m2, m3, m4, m5, m6, m7, m8,
        HexColor.to_rgba, Except.toOption]
    constructor
    · have halpha :
          (pyRound ((hexPairVal (Char.toUpper c7) (Char.toUpper c8) : ℚ) / 255
            * 255)).toNat = hexPairVal (Char.toUpper c7) (Char.toUpper c8) := by
        rw [alpha_restore]
        exact Int.toNat_natCast _
      simp only [hexRoundTrip, hparse, Option.map_some']
      rw [ht]
      simp only [RGBAColor.to_hex, halpha,
        format02x_pair (isHexDig_mem m1) (isHexDig_mem m2),
        format02x_pair (isHexDig_mem m3) (isHexDig_mem m4),
        format02x_pair (isHexDig_mem m5) (isHexDig_mem m6),
        format02x_pair (isHexDig_mem m7) (isHexDig_mem m8)]
      simp
    · intro hlen6
      rw [ht] at hlen6
      simp at hlen6

/-- Claim C1 counterexample: the round trip
`HexColor(value=s).to_rgba().to_hex()` is lowercase and always 8 digits:
for the 6-digit uppercase source `#ABCDEF` it yields `#abcdefff`, which is
neither uppercase nor 6 digits. -/
theorem c1_counterexample :
    hexRoundTrip ['#', 'A', 'B', 'C', 'D', 'E', 'F'] =
      some ['#', 'a', 'b', 'c', 'd', 'e', 'f', 'f', 'f'] ∧
    (['#', 'a', 'b', 'c', 'd', 'e', 'f', 'f', 'f'] : List Char) ≠
      ['#', 'A', 'B', 'C', 'D', 'E', 'F'] ∧
    (['#', 'a', 'b', 'c', 'd', 'e', 'f', 'f', 'f'] : List Char).map Char.toUpper ≠
      ['#', 'a', 'b', 'c', 'd', 'e', 'f', 'f', 'f'] := by
  refine ⟨?_, by decide, by decide⟩
  have h := (hexRoundTrip_spec ['#', 'A', 'B', 'C', 'D', 'E', 'F']
    (by decide) (by decide)).1
  rw [h]
  decide

/-- Claim C1 (amended): for every string that, after stripping an optional
leading hash mark, has 6 or 8 hex digits, the round trip through RGBA
yields the LOWERCASE 8-digit form: the original digits case-folded to
lowercase, with the alpha pair preserved verbatim for 8-digit sources and
`ff` (alpha defaulted to 1.0) appended exactly when the source had 6
digits. -/
theorem c1_hex_roundtrip (s : List Char)
    (hlen : (stripHash s).length = 6 ∨ (stripHash s).length = 8)
    (hhex : (stripHash s).all isHexDig = true) :
    hexRoundTrip s = some ('#' :: ((stripHash s).map Char.toLower ++
      (if (stripHash s).length = 6 then ['f', 'f'] else []))) ∧
    ((stripHash s).length = 6 → ∀ c, hexParseRGBA s = some c → c.a = 1) :=
  hexRoundTrip_spec s hlen hhex

/-- Claim C1 witness: the amended round-trip at the concrete mixed-case
6-digit source `#1aB2c3` and the 8-digit source `80FF00C0`. -/
theorem c1_hex_roundtrip_witness :
    hexRoundTrip ['#', '1', 'a', 'B', '2', 'c', '3'] =
      some ['#', '1', 'a', 'b', '2', 'c', '3', 'f', 'f'] ∧
    hexRoundTrip ['8', '0', 'F', 'F', '0', '0', 'C', '0'] =
      some ['#', '8', '0', 'f', 'f', '0', '0', 'c', '0'] := by
  constructor
  · have h := (c1_hex_roundtrip ['#', '1', 'a', 'B', '2', 'c', '3']
      (by decide) (by decide)).1
    rw [h]
    decide
  · have h := (c1_hex_roundtrip ['8', '0', 'F', 'F', '0', '0', 'C', '0']
      (by decide) (by decide)).1
    rw [h]
    decide

/-- Claim C4 counterexample: `add_child` does not detach a child from its
previous container, so after `g1.add_child(c); g2.add_child(c)` the node
`c` sits in the children lists of both distinct groups while its
`parent_id` back-reference points only at `g2`. -/
theorem c4_counterexample :
    "c" ∈ (addChild (addChild emptyHeap "g1" "c") "g2" "c").children "g1" ∧
    "c" ∈ (addChild (addChild emptyHeap "g1" "c") "g2" "c").children "g2" ∧
    ("g1" : String) ≠ "g2" ∧
    (addChild (addChild emptyHeap "g1" "c") "g2" "c").parent "c" = some "g2" ∧
    (addChild (addChild emptyHeap "g1" "c") "g2" "c").parent "c" ≠ some "g1" := by
  refine ⟨by decide, by decide, by decide, by decide, by decide⟩

/-- Claim C4 (amended): containment/back-reference consistency holds in
the empty heap and is preserved by `remove_child` unconditionally and by
`add_child` PROVIDED the child is not currently contained anywhere (the
code does not detach it from a previous container, so adding an
already-contained child breaks exclusivity); `add_child` sets the child's
`parent_id` to the target group and `remove_child` clears it. -/
theorem c4_parent_consistency :
    HeapConsistent emptyHeap ∧
    (∀ s g c, HeapConsistent s → (∀ g', c ∉ s.children g') →
      HeapConsistent (addChild s g c)) ∧
    (∀ s g c, HeapConsistent s → HeapConsistent (removeChild s g c).1) ∧
    (∀ s g c, (addChild s g c).parent c = some g ∧
      c ∈ (addChild s g c).children g) ∧
    (∀ s g c, c ∈ s.children g →
      (removeChild s g c).2 = true ∧ (removeChild s g c).1.parent c = none) ∧
    (∀ s g c, c ∉ s.children g → removeChild s g c = (s, false)) := by
  refine ⟨?_, ?_, ?_, ?_, ?_, ?_⟩
  · exact ⟨fun c g1 g2 h1 _ => absurd h1 (by simp [emptyHeap]),
      fun c g h => absurd h (by simp [emptyHeap]),
      fun c g h => absurd h (by simp [emptyHeap]),
      fun c g h => absurd h (by simp [emptyHeap])⟩
  · rintro s g c ⟨J1, J2, J3, J4⟩ fresh
    refine ⟨?_, ?_, ?_, ?_⟩
    · intro x g1 g2 h1 h2
      by_cases e1 : g1 = g <;> by_cases e2 : g2 = g <;>
        simp only [addChild, e1, e2, if_pos, if_neg, List.mem_append,
          List.mem_singleton] at h1 h2
      · rw [e1, e2]
      · rcases h1 with h1 | rfl
        · exact absurd (J1 x g g2 h1 h2).symm e2
        · exact absurd h2 (fresh g2)
      · rcases h2 with h2 | rfl
        · exact absurd (J1 x g1 g h1 h2) e1
        · exact absurd h1 (fresh g1)
      · exact J1 x g1 g2 h1 h2
    · intro x h hx
      by_cases e : h = g
      · subst e
        simp only [addChild, if_pos] at hx ⊢
        rcases List.mem_append.mp hx with hx' | hx'
        · have hne : x ≠ c := fun hxc => fresh h (hxc ▸ hx')
          rw [List.count_append]
          simp [List.count_cons, hne, J2 x h hx']
        · have hxc : x = c := by simpa using hx'
          subst hxc
          rw [List.count_append]
          have h0 : (s.children h).count x = 0 :=
            List.count_eq_zero.mpr (fresh h)
          simp [List.count_cons, h0]
      · simp only [addChild, if_neg e] at hx ⊢
        exact J2 x h hx
    · intro x h hx
      by_cases xc : x = c
      · subst xc
        have hg : h = g := by
          by_cases e : h = g
          · exact e
          · simp only [addChild, if_neg e] at hx
            exact absurd hx (fresh h)
        subst hg
        simp [addChild]
      · have hx' : x ∈ s.children h := by
          by_cases e : h = g
          · subst e
            simp only [addChild, if_pos] at hx
            rcases List.mem_append.mp hx with hx' | hx'
            · exact hx'
            · exact absurd (by simpa using hx') xc
          · simpa [addChild, if_neg e] using hx
        simp only [addChild, if_neg xc]
        exact J3 x h hx'
    · intro x h hp
      by_cases xc : x = c
      · subst xc
        simp only [addChild, if_pos] at hp
        obtain rfl : g = h := by simpa using hp
        simp [addChild]
      · simp only [addChild, if_neg xc] at hp
        have := J4 x h hp
        by_cases e : h = g
        · subst e
          simp [addChild, List.mem_append, this]
        · simpa [addChild, if_neg e] using this
  · rintro s g c ⟨J1, J2, J3, J4⟩
    unfold removeChild
    by_cases hc : c ∈ s.children g
    · simp only [if_pos hc]
      refine ⟨?_, ?_, ?_, ?_⟩
      · intro x g1 g2 h1 h2
        have h1' : x ∈ s.children g1 := by
          by_cases e : g1 = g
          · subst e; simp only [if_pos] at h1; exact List.mem_of_mem_erase h1
          · simpa [if_neg e] using h1
        have h2' : x ∈ s.children g2 := by
          by_cases e : g2 = g
          · subst e; simp only [if_pos] at h2; exact List.mem_of_mem_erase h2
          · simpa [if_neg e] using h2
        exact J1 x g1 g2 h1' h2'
      · intro x h hx
        by_cases e : h = g
        · subst e
          simp only [if_pos] at hx ⊢
          have hxc : x ≠ c := by
            intro hxc
            subst hxc
            have h1 : (s.children h).count x = 1 := J2 x h hc
            have h0 : ((s.children h).erase x).count x = 0 := by
              rw [List.count_erase_self, h1]
            exact absurd (List.count_eq_zero.mp h0) (fun hn => hn hx)
          rw [List.count_erase_of_ne hxc]
          exact J2 x h (List.mem_of_mem_erase hx)
        · simp only [if_neg e] at hx ⊢
          exact J2 x h hx
      · intro x h hx
        have hxc : x ≠ c := by
          intro hxc
          subst hxc
          by_cases e : h = g
          · subst e
            simp only [if_pos] at hx
            have h1 : (s.children h).count x = 1 := J2 x h hc
            have h0 : ((s.children h).erase x).count x = 0 := by
              rw [List.count_erase_self, h1]
            exact absurd (List.count_eq_zero.mp h0) (fun hn => hn hx)
          · simp only [if_neg e] at hx
            exact e (J1 x h g hx hc)
        have hx' : x ∈ s.children h := by
          by_cases e : h = g
          · subst e; simp only [if_pos] at hx; exact List.mem_of_mem_erase hx
          · simpa [if_neg e] using hx
        simp only [if_neg hxc]
        exact J3 x h hx'
      · intro x h hp
        have hxc : x ≠ c := by
          intro hxc; subst hxc; simp at hp
        simp only [if_neg hxc] at hp
        have hx := J4 x h hp
        by_cases e : h = g
        · subst e
          simp only [if_pos]
          exact (List.mem_erase_of_ne hxc).mpr hx
        · simpa [if_neg e] using hx
    · simp only [if_neg hc]
      exact ⟨J1, J2, J3, J4⟩
  · intro s g c
    constructor
    · simp [addChild]
    · simp [addChild]
  · intro s g c hc
    constructor
    · simp [removeChild, hc]
    · simp [removeChild, hc]
  · intro s g c hc
    simp [removeChild, hc]

/-- Claim C4 witness: consistency of the concrete heap obtained by adding
a fresh child to a group of the empty heap, and the no-op removal of an
absent child. -/
theorem c4_parent_consistency_witness :
    HeapConsistent (addChild emptyHeap "g" "c") ∧
    removeChild emptyHeap "g" "c" = (emptyHeap, false) := by
  constructor
  · exact c4_parent_consistency.2.1 emptyHeap "g" "c" c4_parent_consistency.1
      (fun g' => by simp [emptyHeap])
  · exact c4_parent_consistency.2.2.2.2.2 emptyHeap "g" "c" (by simp [emptyHeap])

/-- Helper: layer search distributes over forest concatenation. -/
theorem findLayerF_append (xs ys : List LNode) (a : String) :
    findLayerF (xs ++ ys) a = (findLayerF xs a || findLayerF ys a) := by
  induction xs with
  | nil => simp [findLayerF]
  | cons c rest ih => cases c <;> simp [findLayerF, ih, Bool.or_assoc]

/-- Helper: inserting a node under a group preserves every found layer. -/
theorem findLayerF_addToGroupF_mono (forest : List LNode) (g : String)
    (n : LNode) (a : String) (h : findLayerF forest a = true) :
    findLayerF (addToGroupF forest g n) a = true := by
  induction forest, g, n using addToGroupF.induct with
  | case1 g n => simp [findLayerF] at h
  | case2 g n i rest ih =>
    simp only [findLayerF, Bool.or_eq_true] at h
    simp only [addToGroupF, findLayerF, Bool.or_eq_true]
    rcases h with h | h
    · exact Or.inl h
    · exact Or.inr (ih h)
  | case3 n i cs rest =>
    simp only [findLayerF, Bool.or_eq_true] at h
    simp only [addToGroupF, eq_self_iff_true, if_true, findLayerF,
      findLayerF_append, Bool.or_eq_true]
    rcases h with h | h
    · exact Or.inl (Or.inl h)
    · exact Or.inr h
  | case4 g n i cs rest hne hcs ih =>
    simp only [findLayerF, Bool.or_eq_true] at h
    simp only [addToGroupF, if_neg hne, if_pos hcs, findLayerF, Bool.or_eq_true]
    rcases h with h | h
    · exact Or.inl (ih h)
    · exact Or.inr h
  | case5 g n i cs rest hne hncs ih =>
    simp only [findLayerF, Bool.or_eq_true] at h
    simp only [addToGroupF, if_neg hne, if_neg hncs, findLayerF, Bool.or_eq_true]
    rcases h with h | h
    · exact Or.inl h
    · exact Or.inr (ih h)

/-- Helper: inserting under a reachable group makes every layer findable
inside the new node findable in the result. -/
theorem findLayerF_addToGroupF_new (forest : List LNode) (g : String)
    (n : LNode) (a : String) (hg : findGroupF forest g = true)
    (hn : findLayerF [n] a = true) :
    findLayerF (addToGroupF forest g n) a = true := by
  induction forest, g, n using addToGroupF.induct with
  | case1 g n => simp [findGroupF] at hg
  | case2 g n i rest ih =>
    simp only [findGroupF] at hg
    simp only [addToGroupF, findLayerF, Bool.or_eq_true]
    exact Or.inr (ih hg hn)
  | case3 n i cs rest =>
    simp only [addToGroupF, eq_self_iff_true, if_true, findLayerF,
      findLayerF_append, Bool.or_eq_true]
    exact Or.inl (Or.inr hn)
  | case4 g n i cs rest hne hcs ih =>
    simp only [addToGroupF, if_neg hne, if_pos hcs, findLayerF, Bool.or_eq_true]
    exact Or.inl (ih hcs hn)
  | case5 g n i cs rest hne hncs ih =>
    simp only [findGroupF, Bool.or_eq_true] at hg
    rcases hg with (hg | hg) | hg
    · exact absurd (by simpa using hg) hne
    · exact absurd hg (by simp [hncs])
    · simp only [addToGroupF, if_neg hne, if_neg hncs, findLayerF,
        Bool.or_eq_true]
      exact Or.inr (ih hg hn)

/-- Helper: inserting a fresh layer under a reachable group makes it
findable. -/
theorem findLayerF_addToGroupF_inserted (forest : List LNode) (g lid : String)
    (hg : findGroupF forest g = true) :
    findLayerF (addToGroupF forest g (.layer lid)) lid = true :=
  findLayerF_addToGroupF_new forest g (.layer lid) lid hg (by simp [findLayerF])

/-- Helper: a findable layer's id occurs among the forest's node ids. -/
theorem findLayerF_mem_idsF (l : List LNode) (x : String)
    (h : findLayerF l x = true) : x ∈ idsF l := by
  induction l, x using findLayerF.induct with
  | case1 a => simp [findLayerF] at h
  | case2 i rest a ih =>
    simp only [findLayerF, Bool.or_eq_true] at h
    simp only [idsF, List.mem_cons]
    rcases h with h | h
    · have hia : i = a := by simpa using h
      exact Or.inl hia.symm
    · exact Or.inr (ih h)
  | case3 i cs rest a ih1 ih2 =>
    simp only [findLayerF, Bool.or_eq_true] at h
    simp only [idsF, List.mem_cons, List.mem_append]
    rcases h with h | h
    · exact Or.inr (Or.inl (ih1 h))
    · exact Or.inr (Or.inr (ih2 h))

/-- Helper: the remover reports success exactly when the id occurs. -/
theorem removeByIdF_found_iff (l : List LNode) (x : String) :
    (removeByIdF l x).2 = true ↔ x ∈ idsF l := by
  induction l, x using removeByIdF.induct with
  | case1 x => simp [removeByIdF, idsF]
  | case2 c rest =>
    cases c with
    | layer i => simp [removeByIdF, LNode.nodeId, idsF]
    | group i cs => simp [removeByIdF, LNode.nodeId, idsF]
  | case3 rest x i hne ih =>
    try simp only [LNode.nodeId] at hne
    simp only [removeByIdF, LNode.nodeId, if_neg hne, idsF, List.mem_cons]
    rw [ih]
    constructor
    · intro h; exact Or.inr h
    · rintro (rfl | h)
      · exact absurd rfl hne
      · exact h
  | case4 rest x i children inner hinner hne ih =>
    try simp only [LNode.nodeId] at hne
    have hinner2 : (removeByIdF children x).2 = true := hinner
    simp only [removeByIdF, LNode.nodeId, if_neg hne, hinner2, if_pos, idsF,
      List.mem_cons, List.mem_append]
    constructor
    · intro _
      exact Or.inr (Or.inl (ih.mp hinner2))
    · intro _
      trivial
  | case5 rest x i children inner hninner hne ih1 ih2 =>
    try simp only [LNode.nodeId] at hne
    have hninner' : (removeByIdF children x).2 = false := by
      simpa using hninner
    simp only [removeByIdF, LNode.nodeId, if_neg hne, hninner',
      Bool.false_eq_true, if_neg, if_false, idsF, List.mem_cons, List.mem_append]
    rw [ih2]
    have hnotcs : x ∉ idsF children := fun hm => by
      rw [← ih1] at hm
      rw [hninner'] at hm
      exact absurd hm (by simp)
    constructor
    · intro h
      exact Or.inr (Or.inr h)
    · rintro (h | h | h)
      · exact absurd h.symm hne
      · exact absurd h hnotcs
      · exact h

/-- Helper: a failed removal leaves the forest unchanged. -/
theorem removeByIdF_not_found (l : List LNode) (x : String)
    (h : (removeByIdF l x).2 = false) : (removeByIdF l x).1 = l := by
  induction l, x using removeByIdF.induct with
  | case1 x => simp [removeByIdF]
  | case2 c rest =>
    rw [removeByIdF.eq_def] at h
    simp at h
  | case3 rest x i hne ih =>
    try simp only [LNode.nodeId] at hne
    simp only [removeByIdF, LNode.nodeId, if_neg hne] at h ⊢
    rw [ih h]
  | case4 rest x i children inner hinner hne ih =>
    try simp only [LNode.nodeId] at hne
    have hinner2 : (removeByIdF children x).2 = true := hinner
    simp only [removeByIdF, LNode.nodeId, if_neg hne, hinner2, if_pos] at h
    simp at h
  | case5 rest x i children inner hninner hne ih1 ih2 =>
    try simp only [LNode.nodeId] at hne
    have hninner' : (removeByIdF children x).2 = false := by
      simpa using hninner
    simp only [removeByIdF, LNode.nodeId, if_neg hne, hninner',
      Bool.false_eq_true, if_neg, if_false] at h ⊢
    rw [ih2 h]

/-- Helper: when all node ids are distinct, removing the node with id `x`
(present as a layer) keeps every other layer findable. -/
theorem findLayerF_removeByIdF (l : List LNode) (x : String) :
    (idsF l).Nodup → findLayerF l x = true → ∀ a, a ≠ x →
    findLayerF l a = true → findLayerF (removeByIdF l x).1 a = true := by
  induction l, x using removeByIdF.induct with
  | case1 x =>
    intro _ hfx _ _ _
    simp [findLayerF] at hfx
  | case2 c rest =>
    intro hnd hfx a hax hfa
    cases c with
    | layer i =>
      simp only [removeByIdF, LNode.nodeId, if_pos rfl]
      simp only [findLayerF, Bool.or_eq_true] at hfa
      rcases hfa with hfa | hfa
      · have : i = a := by simpa using hfa
        exact absurd this.symm (by simpa [LNode.nodeId] using hax)
      · exact hfa
    | group i cs =>
      exfalso
      simp only [LNode.nodeId, idsF, List.nodup_cons, List.mem_append] at hnd
      simp only [findLayerF, Bool.or_eq_true] at hfx
      rcases hfx with hfx | hfx
      · exact hnd.1 (Or.inl (findLayerF_mem_idsF cs _ hfx))
      · exact hnd.1 (Or.inr (findLayerF_mem_idsF rest _ hfx))
  | case3 rest x i hne ih =>
    intro hnd hfx a hax hfa
    try simp only [LNode.nodeId] at hne
    simp only [removeByIdF, LNode.nodeId, if_neg hne]
    simp only [findLayerF, Bool.or_eq_true] at hfa hfx ⊢
    rcases hfx with hfx | hfx
    · exact absurd (by simpa using hfx) hne
    · rcases hfa with hfa | hfa
      · exact Or.inl hfa
      · have hnd' : (idsF rest).Nodup := by
          simp only [idsF, List.nodup_cons] at hnd
          exact hnd.2
        exact Or.inr (ih hnd' hfx a hax hfa)
  | case4 rest x i children inner hinner hne ih =>
    intro hnd hfx a hax hfa
    try simp only [LNode.nodeId] at hne
    have hinner2 : (removeByIdF children x).2 = true := hinner
    simp only [removeByIdF, LNode.nodeId, if_neg hne, hinner2, if_pos]
    simp only [findLayerF, Bool.or_eq_true] at hfa hfx ⊢
    have hxcs : x ∈ idsF children := (removeByIdF_found_iff children x).mp hinner2
    simp only [idsF, List.nodup_cons, List.nodup_append] at hnd
    have hfxcs : findLayerF children x = true := by
      rcases hfx with hfx | hfx
      · exact hfx
      · exact absurd (findLayerF_mem_idsF rest x hfx)
          (fun hm => hnd.2.2.2 hxcs hm)
    rcases hfa with hfa | hfa
    · exact Or.inl (ih hnd.2.1 hfxcs a hax hfa)
    · exact Or.inr hfa
  | case5 rest x i children inner hninner hne ih1 ih2 =>
    intro hnd hfx a hax hfa
    try simp only [LNode.nodeId] at hne
    have hninner' : (removeByIdF children x).2 = false := by
      simpa using hninner
    simp only [removeByIdF, LNode.nodeId, if_neg hne, hninner',
      Bool.false_eq_true, if_neg, if_false]
    simp only [findLayerF, Bool.or_eq_true] at hfa hfx ⊢
    have hxcs : x ∉ idsF children := fun hm => by
      rw [← removeByIdF_found_iff children x] at hm
      rw [hninner'] at hm
      exact absurd hm (by simp)
    have hfxrest : findLayerF rest x = true := by
      rcases hfx with hfx | hfx
      · exact absurd (findLayerF_mem_idsF children x hfx) hxcs
      · exact hfx
    rcases hfa with hfa | hfa
    · exact Or.inl hfa
    · have hnd' : (idsF rest).Nodup := by
        simp only [idsF, List.nodup_cons, List.nodup_append] at hnd
        exact hnd.2.2.1
      exact Or.inr (ih2 hnd' hfxrest a hax hfa)

/-- Claim C3 counterexample: create a group, create a layer inside it (it
becomes active), then delete the group — the layer is no longer reachable
from the root but `active_layer_id` still points at it: `delete_group`
never clears the active layer. -/
theorem c3_counterexample :
    (delete_group (create_layer (create_group (mkLayerManager "root")
        "g" none) "l" (some "g")) "g").active = some "l" ∧
    findLayerF (delete_group (create_layer (create_group (mkLayerManager "root")
        "g" none) "l" (some "g")) "g").forest "l" = false ∧
    ¬ ActiveReachable (delete_group (create_layer (create_group
        (mkLayerManager "root") "g" none) "l" (some "g")) "g") := by
  have h1 : create_group (mkLayerManager "root") "g" none =
      ⟨"root", [LNode.group "g" []], none⟩ := rfl
  have h2 : create_layer ⟨"root", [LNode.group "g" []], none⟩ "l" (some "g") =
      ⟨"root", [LNode.group "g" [LNode.layer "l"]], some "l"⟩ := by
    simp only [create_layer]
    rw [if_neg (by decide : ¬ ("g" : String) = "root")]
    simp [addToGroupF]
  have h3 : delete_group ⟨"root", [LNode.group "g" [LNode.layer "l"]],
      some "l"⟩ "g" = ⟨"root", [], some "l"⟩ := by
    simp only [delete_group]
    rw [if_neg (by decide : ¬ ("g" : String) = "root")]
    rw [if_pos (by simp [findGroupF] : findGroupF
      [LNode.group "g" [LNode.layer "l"]] "g" = true)]
    simp [removeByIdF, LNode.nodeId]
  rw [h1, h2, h3]
  refine ⟨rfl, by simp [findLayerF], ?_⟩
  intro h
  have h4 := h "l" rfl
  simp [findLayerF] at h4

/-- Claim C3 (amended): the invariant "`active_layer_id`, when set, refers
to a layer reachable from the root" holds for the fresh manager and is
preserved by `create_layer` (given a live parent group), `create_group`,
`set_active_layer`, and — assuming the globally unique generated ids —
`delete_layer`, which also clears the active id when it deletes the active
layer; but `delete_group` does NOT preserve it: deleting a group whose
subtree contains the active layer leaves `active_layer_id` dangling. -/
theorem c3_active_reachable :
    (∀ rid, ActiveReachable (mkLayerManager rid)) ∧
    (∀ m lid pg, ActiveReachable m →
      (∀ g, pg = some g → g = m.rootId ∨ findGroupF m.forest g = true) →
      ActiveReachable (create_layer m lid pg)) ∧
    (∀ m gid pg, ActiveReachable m → ActiveReachable (create_group m gid pg)) ∧
    (∀ m lid, (idsF m.forest).Nodup → ActiveReachable m →
      ActiveReachable (delete_layer m lid)) ∧
    (∀ m lid, findLayerF m.forest lid = true → m.active = some lid →
      (delete_layer m lid).active = none) ∧
    (∀ m lid, ActiveReachable m → ActiveReachable (set_active_layer m lid)) := by
  refine ⟨?_, ?_, ?_, ?_, ?_, ?_⟩
  · intro rid a h
    simp [mkLayerManager] at h
  · intro m lid pg hI hpg a ha
    simp only [create_layer] at ha ⊢
    by_cases hact : m.active = none
    · simp only [hact, if_pos] at ha
      obtain rfl : lid = a := by simpa using ha
      cases pg with
      | none =>
        simp only [findLayerF_append, Bool.or_eq_true]
        exact Or.inr (by simp [findLayerF])
      | some g =>
        rcases hpg g rfl with hg | hg
        · simp only [if_pos hg, findLayerF_append, Bool.or_eq_true]
          exact Or.inr (by simp [findLayerF])
        · by_cases hroot : g = m.rootId
          · simp only [if_pos hroot, findLayerF_append, Bool.or_eq_true]
            exact Or.inr (by simp [findLayerF])
          · simp only [if_neg hroot]
            exact findLayerF_addToGroupF_inserted m.forest g lid hg
    · simp only [hact, if_neg] at ha
      have hfind := hI a ha
      cases pg with
      | none =>
        simp only [findLayerF_append, Bool.or_eq_true]
        exact Or.inl hfind
      | some g =>
        by_cases hroot : g = m.rootId
        · simp only [if_pos hroot, findLayerF_append, Bool.or_eq_true]
          exact Or.inl hfind
        · simp only [if_neg hroot]
          exact findLayerF_addToGroupF_mono m.forest g _ a hfind
  · intro m gid pg hI a ha
    simp only [create_group] at ha ⊢
    have hfind := hI a ha
    cases pg with
    | none =>
      simp only [findLayerF_append, Bool.or_eq_true]
      exact Or.inl hfind
    | some g =>
      by_cases hroot : g = m.rootId
      · simp only [if_pos hroot, findLayerF_append, Bool.or_eq_true]
        exact Or.inl hfind
      · simp only [if_neg hroot]
        exact findLayerF_addToGroupF_mono m.forest g _ a hfind
  · intro m lid hnd hI a ha
    simp only [delete_layer] at ha ⊢
    by_cases hfound : findLayerF m.forest lid = true
    · simp only [hfound, if_pos] at ha ⊢
      by_cases hact : m.active = some lid
      · simp only [hact, if_pos] at ha
        simp at ha
      · simp only [hact, if_neg] at ha
        have hfind := hI a ha
        have hax : a ≠ lid := by
          intro rfl_eq
          subst rfl_eq
          exact hact (ha ▸ rfl)
        exact findLayerF_removeByIdF m.forest lid hnd hfound a hax hfind
    · simp only [hfound, if_neg] at ha ⊢
      rw [if_neg (by simp [hfound])] at ha ⊢
      exact hI a ha
  · intro m lid hfound hact
    simp [delete_layer, hfound, hact]
  · intro m lid hI a ha
    simp only [set_active_layer] at ha ⊢
    by_cases hfound : findLayerF m.forest lid = true
    · simp only [hfound, if_pos] at ha ⊢
      obtain rfl : lid = a := by simpa using ha
      exact hfound
    · simp only [hfound, if_neg] at ha ⊢
      rw [if_neg (by simp [hfound])] at ha ⊢
      exact hI a ha

/-- Claim C3 witness: the preservation conjuncts chained on a concrete
manager — create a group under the root, a layer inside it, delete a
different layer — with every hypothesis discharged concretely. -/
theorem c3_active_reachable_witness :
    ActiveReachable (delete_layer
      ⟨"root", [LNode.group "g" [LNode.layer "l"]], some "l"⟩ "other") := by
  apply c3_active_reachable.2.2.2.1 _ "other" (by simp [idsF]) ?_
  intro a ha
  obtain rfl : "l" = a := by simpa using ha
  simp [findLayerF]

end DrawingLib
